import Mathlib

/-!
Verification development for the Firebot goal-tracker donation engine
(`src/utility/goal-manager.ts`).

Modelling conventions:
* JavaScript numbers are modelled as exact rationals (`ℚ`); `toFixed(2)`
  followed by `parseFloat` is modelled as rounding half-up to two decimal
  places, matching the ECMAScript `toFixed` specification on exact decimal
  values ("if there are two such n, pick the larger n").
* `new Date(s).getTime()` and the other `Date` accessors are platform
  services; they are passed in as explicit parameters (a partial function
  `String → Option ℤ` where `none` models an invalid date / `NaN`, or a
  record of calendar fields), never reimplemented.
* `JSON` documents handled by the untyped deep-equality routine are
  modelled by an inductive `Json` type.  JavaScript `===` on primitives is
  value equality; on arrays/objects it is reference equality, which a tree
  model cannot observe — it is modelled as `false` for composites, which
  yields the same results because the structural comparison that follows
  returns `true` whenever both sides are the same object.
* Database reads/writes (`node-json-db`) are modelled by explicit state
  passing: each operation takes the stored document (`Option _`, `none`
  meaning "path absent") and returns the document after the operation
  together with its result.  The store write happens exactly where the
  source performs `db.push`.
-/

/-! ## Numeric utilities (`goal-manager.ts` lines 28-40) -/

/-- `roundToTwoDecimals(value) { return parseFloat(value.toFixed(2)); }`:
round half-up to two decimal places. -/
def roundToTwoDecimals (value : ℚ) : ℚ := (⌊value * 100 + 1/2⌋ : ℤ) / 100

/-- `safeAdd(a, b) { return this.roundToTwoDecimals((a * 100 + b * 100) / 100); }` -/
def safeAdd (a b : ℚ) : ℚ := roundToTwoDecimals ((a * 100 + b * 100) / 100)

/-- A rational that is representable with at most two decimal places
(i.e. a whole number of cents). -/
def Is2Dec (x : ℚ) : Prop := ∃ n : ℤ, x = n / 100

theorem Is2Dec.add {x y : ℚ} (hx : Is2Dec x) (hy : Is2Dec y) : Is2Dec (x + y) := by
  obtain ⟨n, rfl⟩ := hx
  obtain ⟨m, rfl⟩ := hy
  exact ⟨n + m, by push_cast; ring⟩

theorem Is2Dec.sub {x y : ℚ} (hx : Is2Dec x) (hy : Is2Dec y) : Is2Dec (x - y) := by
  obtain ⟨n, rfl⟩ := hx
  obtain ⟨m, rfl⟩ := hy
  exact ⟨n - m, by push_cast; ring⟩

theorem Is2Dec.zero : Is2Dec 0 := ⟨0, by norm_num⟩

theorem Is2Dec.sum {l : List ℚ} (h : ∀ x ∈ l, Is2Dec x) : Is2Dec l.sum := by
  induction l with
  | nil => simpa using Is2Dec.zero
  | cons a t ih =>
    rw [List.sum_cons]
    exact (h a (by simp)).add (ih fun x hx => h x (by simp [hx]))

/-- Rounding is the identity on two-decimal rationals. -/
theorem roundToTwoDecimals_of_Is2Dec {x : ℚ} (h : Is2Dec x) :
    roundToTwoDecimals x = x := by
  obtain ⟨n, rfl⟩ := h
  unfold roundToTwoDecimals
  have h100 : ((n : ℚ) / 100) * 100 = (n : ℚ) := by field_simp
  rw [h100]
  have : ⌊(n : ℚ) + 1/2⌋ = n := by
    rw [add_comm, Int.floor_add_int]
    norm_num
  rw [this]

theorem Is2Dec.round (x : ℚ) : Is2Dec (roundToTwoDecimals x) :=
  ⟨⌊x * 100 + 1/2⌋, rfl⟩

/-- In exact arithmetic the cents-scaling inside `safeAdd` cancels:
`safeAdd a b` is just the sum rounded to two decimals. -/
theorem safeAdd_eq_round_add (a b : ℚ) : safeAdd a b = roundToTwoDecimals (a + b) := by
  unfold safeAdd
  congr 1
  ring

theorem safeAdd_of_Is2Dec {a b : ℚ} (ha : Is2Dec a) (hb : Is2Dec b) :
    safeAdd a b = a + b := by
  rw [safeAdd_eq_round_add]
  exact roundToTwoDecimals_of_Is2Dec (ha.add hb)

/-- Folding `safeAdd` from a two-decimal accumulator over a list of
two-decimal amounts produces the exact sum. -/
theorem foldl_safeAdd_eq_sum {l : List ℚ} {a : ℚ} (ha : Is2Dec a)
    (hl : ∀ x ∈ l, Is2Dec x) : l.foldl safeAdd a = a + l.sum := by
  induction l generalizing a with
  | nil => simp
  | cons x t ih =>
    have hx : Is2Dec x := hl x (by simp)
    rw [List.foldl_cons, safeAdd_of_Is2Dec ha hx,
      ih (ha.add hx) (fun y hy => hl y (by simp [hy])), List.sum_cons]
    ring

/-! ## Untyped JSON values and `isEqual` (`goal-manager.ts` lines 48-77) -/

/-- A JSON-like JavaScript value (the arguments of `isEqual`). -/
inductive Json where
  | null : Json
  | bool : Bool → Json
  | num : ℚ → Json
  | str : String → Json
  | arr : List Json → Json
  | obj : List (String × Json) → Json

/-- JavaScript `===`: value equality on primitives; on two composites it is
reference equality, which a tree model cannot observe and which is modelled
as `false` (`isEqual` returns the same answer either way, because the
structural walk that follows returns `true` on identical structures). -/
def jsStrictEq : Json → Json → Bool
  | .null, .null => true
  | .bool a, .bool b => a == b
  | .num a, .num b => a == b
  | .str a, .str b => a == b
  | _, _ => false

/-- JavaScript falsiness of a JSON value (`!obj`). -/
def jsFalsy : Json → Bool
  | .null => true
  | .bool b => !b
  | .num q => q == 0
  | .str s => s == ""
  | _ => false

/-- `typeof v === 'object'` for a non-null value: arrays and objects. -/
def jsIsObjectType : Json → Bool
  | .arr _ => true
  | .obj _ => true
  | _ => false

/-- `Object.keys`: field names of an object, canonical index strings of an
array. -/
def jsKeys : Json → List String
  | .obj fields => fields.map (·.1)
  | .arr xs => (List.range xs.length).map toString
  | _ => []

/-- Property lookup `v[k]`, `none` modelling `undefined`. -/
def jsGet : Json → String → Option Json
  | .obj fields, k => (fields.find? (fun p => p.1 == k)).map (·.2)
  | .arr xs, k =>
    match k.toNat? with
    | some i => if toString i == k then xs.get? i else none
    | none => none
  | _, _ => none

mutual

/-- `isEqual(obj1, obj2)`: deep comparison handling date strings.  The
date parser `pd` models `new Date(s).getTime()` (`none` = `NaN`). -/
def isEqual (pd : String → Option ℤ) (obj1 obj2 : Json) : Bool :=
  -- `if (obj1 === obj2) return true;`
  if jsStrictEq obj1 obj2 then true
  -- `if (!obj1 || !obj2) return false;`
  else if jsFalsy obj1 || jsFalsy obj2 then false
  else
    match obj1, obj2 with
    -- date-aware string comparison
    | .str s1, .str s2 =>
      (match pd s1, pd s2 with
       | some date1, some date2 => date1 == date2
       -- fall through to the final `return obj1 === obj2`
       | _, _ => s1 == s2)
    -- `Array.isArray(obj1) && Array.isArray(obj2)`
    | .arr xs, .arr ys => xs.length == ys.length && isEqualList pd xs ys
    | j1, j2 =>
      -- `typeof obj1 === 'object' && typeof obj2 === 'object'`
      if jsIsObjectType j1 && jsIsObjectType j2 then
        (jsKeys j1).length == (jsKeys j2).length &&
          match j1 with
          | .obj fields => isEqualFields pd fields j2
          | .arr xs => isEqualArrayAsObject pd xs 0 j2
          | _ => false
      else
        jsStrictEq j1 j2

/-- Point-wise comparison of two arrays (whose lengths already matched). -/
def isEqualList (pd : String → Option ℤ) : List Json → List Json → Bool
  | [], _ => true
  | _ :: _, [] => false
  | x :: xs, y :: ys => isEqual pd x y && isEqualList pd xs ys

/-- `keys1.every(key => this.isEqual(obj1[key], obj2[key]))` for an object
`obj1`; a key missing from `obj2` compares a value against `undefined`,
which `isEqual` answers with `false`. -/
def isEqualFields (pd : String → Option ℤ) : List (String × Json) → Json → Bool
  | [], _ => true
  | (k, v) :: rest, j2 =>
    (match jsGet j2 k with
     | some v2 => isEqual pd v v2
     | none => false) &&
    isEqualFields pd rest j2

/-- The same key walk when `obj1` is an array compared against a non-array
object: its keys are its indices. -/
def isEqualArrayAsObject (pd : String → Option ℤ) : List Json → Nat → Json → Bool
  | [], _, _ => true
  | x :: xs, i, j2 =>
    (match jsGet j2 (toString i) with
     | some v2 => isEqual pd x v2
     | none => false) &&
    isEqualArrayAsObject pd xs (i + 1) j2

end

/-! ## Goal-state document, `updateGoalData` and `syncExternalData`
(`goal-manager.ts` lines 675-745 and 790-819) -/

/-- The two external sources handled by `syncExternalData`. -/
inductive SourceKey where
  | streamElements : SourceKey
  | extraLife : SourceKey
deriving DecidableEq

/-- A per-source record `{ lastUpdated, lastGoalReset?, data }`. -/
structure SourceSlot where
  lastUpdated : String
  lastGoalReset : Option String
  data : Json

/-- The persisted `/goal` document (fields the engine reads or writes). -/
structure GoalDoc where
  uuid : String
  config : Option Json
  overlayInstance : String
  createdAt : String
  updatedAt : Option String
  streamElements : Option SourceSlot
  extraLife : Option SourceSlot
  localDonations : Option Json

/-- `goalState[source]`. -/
def GoalDoc.getSlot (doc : GoalDoc) : SourceKey → Option SourceSlot
  | .streamElements => doc.streamElements
  | .extraLife => doc.extraLife

/-- `goalState[source] = slot`. -/
def GoalDoc.setSlot (doc : GoalDoc) : SourceKey → SourceSlot → GoalDoc
  | .streamElements, slot => { doc with streamElements := some slot }
  | .extraLife, slot => { doc with extraLife := some slot }

/-- `updateGoalData(data)`: merge the supplied partial state into the stored
document, keeping unrelated fields, and stamp `updatedAt` with "now".  (The
source also computes combined totals into local variables `totalAmount` /
`allDonations`, but never stores them; that dead computation is omitted.) -/
def updateGoalData (now : String) (data : GoalDoc) (db : Option GoalDoc) : GoalDoc :=
  let currentState : GoalDoc :=
    match db with
    | some doc => doc
    | none =>
      { uuid := data.uuid, config := data.config,
        overlayInstance := data.overlayInstance, createdAt := now,
        updatedAt := none, streamElements := none, extraLife := none,
        localDonations := none }
  -- `if (data.config) currentState.config = data.config;`
  let s1 := match data.config with
    | some c => { currentState with config := some c }
    | none => currentState
  -- `if (data.streamElements) currentState.streamElements = {...}`
  let s2 := match data.streamElements with
    | some se =>
      { s1 with streamElements := some (SourceSlot.mk se.lastUpdated se.lastGoalReset se.data) }
    | none => s1
  -- `if (data.extraLife) currentState.extraLife = {...}`
  let s3 := match data.extraLife with
    | some el =>
      { s2 with extraLife := some (SourceSlot.mk el.lastUpdated el.lastGoalReset el.data) }
    | none => s2
  -- `if (data.localDonations) currentState.localDonations = {...}`
  let s4 := match data.localDonations with
    | some ld => { s3 with localDonations := some ld }
    | none => s3
  -- `await this._db.push('/goal', { ...currentState, updatedAt: now })`
  { s4 with updatedAt := some now }

/-- `syncExternalData(source, newData)`: skip the write when the stored data
for that source deep-equals the new payload; otherwise store
`{ lastUpdated: now, lastGoalReset, data: newData }` and merge via
`updateGoalData`.  Returns the stored document afterwards and the boolean
result. -/
def syncExternalData (pd : String → Option ℤ) (now : String) (source : SourceKey)
    (newData : Json) (db : Option GoalDoc) : Option GoalDoc × Bool :=
  match db with
  | none => (db, false)   -- `if (!goalState) return false;`
  | some goalState =>
    let currentData : Option Json := (goalState.getSlot source).map (·.data)
    let lastGoalReset : Option String :=
      (goalState.getSlot source).bind (·.lastGoalReset)
    -- `if (currentData && this.isEqual(currentData, newData)) return false;`
    match currentData with
    | some d =>
      if !jsFalsy d && isEqual pd d newData then (db, false)
      else
        let doc' := goalState.setSlot source
          { lastUpdated := now, lastGoalReset := lastGoalReset, data := newData }
        (some (updateGoalData now doc' db), true)
    | none =>
      let doc' := goalState.setSlot source
        { lastUpdated := now, lastGoalReset := lastGoalReset, data := newData }
      (some (updateGoalData now doc' db), true)

/-! ## Local donation ledger (`goal-manager.ts` lines 448-667) -/

/-- `String.prototype.toLowerCase()` (ASCII model). -/
def jsToLower (s : String) : String := String.mk (s.data.map Char.toLower)

/-- `donationType` values of an individual donation. -/
inductive DonationKind where
  | bits : DonationKind
  | subscription : DonationKind
  | tip : DonationKind
  | localKind : DonationKind
deriving DecidableEq

/-- One stored donation (`StreamElementsDonation` in `types.ts`); `subTier`
holds the raw tier string when present. -/
structure IndividualDonation where
  amount : ℚ
  timestamp : String
  donationType : Option DonationKind
  subTier : Option String
deriving DecidableEq

/-- One donor record (`DonationData` / `StreamElementsDonor` in `types.ts`). -/
structure DonationData where
  name : String
  individual_donations : List IndividualDonation
  total_amount : ℚ
  total_donations : ℤ
deriving DecidableEq

/-- `{ amount, donation_count }`. -/
structure OverallTotal where
  amount : ℚ
  donation_count : ℤ
deriving DecidableEq

/-- The `data` payload of `LocalDonationData` (donors, overall total and
`metadata.lastUpdated`). -/
structure LocalDonationData where
  donations : List DonationData
  overall_total : OverallTotal
  metadataLastUpdated : String
deriving DecidableEq

/-- Result of a ledger operation: a thrown error, the silent duplicate
`null`, or the updated data the operation returned. -/
inductive LocalResult where
  | err : String → LocalResult
  | nullRes : LocalResult
  | ok : LocalDonationData → LocalResult
deriving DecidableEq

/-- The fresh empty local data initialized by `updateLocalDonation` /
`resetLocalData`. -/
def emptyLocalData (now : String) : LocalDonationData :=
  { donations := [], overall_total := { amount := 0, donation_count := 0 },
    metadataLastUpdated := now }

/-- `resetLocalData()`: overwrite the ledger with the empty state. -/
def resetLocalData (now : String) (_db : Option LocalDonationData) :
    Option LocalDonationData :=
  some (emptyLocalData now)

/-- Replace the first element satisfying `p` by its image under `f` (the
mutation of the record returned by `Array.prototype.find`). -/
def updateFirst (p : α → Bool) (f : α → α) : List α → List α
  | [] => []
  | x :: xs => if p x then f x :: xs else x :: updateFirst p f xs

/-- `updateLocalDonation({name, amount})` (lines 522-600).  `pd` models
`new Date(s).getTime()`; `now` is the current instant's ISO string.
Returns the stored document after the call and the call's result. -/
def updateLocalDonation (pd : String → Option ℤ) (name : String) (amount : ℚ)
    (now : String) (db : Option LocalDonationData) :
    Option LocalDonationData × LocalResult :=
  -- `if (donation.amount <= 0) throw ...`
  if amount ≤ 0 then (db, .err "Donation amount must be greater than 0")
  else
    -- `await this.getLocalDonations() || { ...empty... }`
    let currentLocalData := db.getD (emptyLocalData now)
    let newDonation : IndividualDonation :=
      { amount := roundToTwoDecimals amount, timestamp := now,
        donationType := some .localKind, subTier := none }
    -- duplicate detection within a 5 second window
    let isDuplicate := currentLocalData.donations.any fun donor =>
      jsToLower donor.name == jsToLower name &&
      donor.individual_donations.any fun d =>
        match pd d.timestamp, pd newDonation.timestamp with
        | some t1, some t2 =>
          d.amount == newDonation.amount && (t1 - t2).natAbs < 5000
        | _, _ => false   -- an invalid date makes `timeDiff` NaN: not < 5000
    if isDuplicate then (db, .nullRes)
    else
      let matchesName := fun (d : DonationData) => jsToLower d.name == jsToLower name
      let applyDonation := fun (donor : DonationData) =>
        { donor with
          individual_donations := donor.individual_donations ++ [newDonation],
          total_amount := safeAdd donor.total_amount newDonation.amount,
          total_donations := donor.total_donations + 1 }
      -- find-or-create the donor record, then push the donation and
      -- update its totals in place
      let donations' :=
        if currentLocalData.donations.any matchesName then
          updateFirst matchesName applyDonation currentLocalData.donations
        else
          currentLocalData.donations ++
            [applyDonation { name := name, individual_donations := [],
                             total_amount := 0, total_donations := 0 }]
      let newData : LocalDonationData :=
        { donations := donations',
          overall_total :=
            { amount := safeAdd currentLocalData.overall_total.amount newDonation.amount,
              donation_count := currentLocalData.overall_total.donation_count + 1 },
          metadataLastUpdated := now }
      (some newData, .ok newData)

/-- The `forEach` scan of `removeLocalDonation` (lines 616-625): the LAST
donor holding a donation with the given timestamp wins, paired with the
index of that donor's FIRST matching donation. -/
def findDonationIndices (ts : String) : List DonationData → Option (ℕ × ℕ)
  | [] => none
  | donor :: rest =>
    match findDonationIndices ts rest with
    | some (i, j) => some (i + 1, j)
    | none =>
      match donor.individual_donations.findIdx? (fun d => d.timestamp == ts) with
      | some j => some (0, j)
      | none => none

/-- `removeLocalDonation(timestamp)` (lines 608-656). -/
def removeLocalDonation (ts : String) (now : String)
    (db : Option LocalDonationData) : Option LocalDonationData × LocalResult :=
  match db with
  | none => (db, .err "No local donation data found")
  | some currentLocalData =>
    match findDonationIndices ts currentLocalData.donations with
    | none => (db, .err "Donation not found")
    | some (donorIndex, donationIndex) =>
      -- in-bounds array indexing `donations[donorIndex]`,
      -- `individual_donations[donationIndex]`
      match currentLocalData.donations.get? donorIndex with
      | none => (db, .err "Donation not found")
      | some donor =>
        match donor.individual_donations.get? donationIndex with
        | none => (db, .err "Donation not found")
        | some removedDonation =>
          let donor' :=
            { donor with
              individual_donations := donor.individual_donations.eraseIdx donationIndex,
              total_amount := donor.total_amount - removedDonation.amount,
              total_donations := donor.total_donations - 1 }
          -- remove the donor entirely when no donations remain
          let donations' :=
            if donor'.individual_donations.length == 0 then
              currentLocalData.donations.eraseIdx donorIndex
            else
              currentLocalData.donations.set donorIndex donor'
          let newData : LocalDonationData :=
            { donations := donations',
              overall_total :=
                { amount := currentLocalData.overall_total.amount - removedDonation.amount,
                  donation_count := currentLocalData.overall_total.donation_count - 1 },
              metadataLastUpdated := now }
          (some newData, .ok newData)

/-- `resetUserDonations(userName)` (lines 477-514). -/
def resetUserDonations (userName : String) (now : String)
    (db : Option LocalDonationData) : Option LocalDonationData × LocalResult :=
  match db with
  | none => (db, .err "No local donation data found")
  | some currentLocalData =>
    match currentLocalData.donations.findIdx?
        (fun donor => jsToLower donor.name == jsToLower userName) with
    | none => (db, .err "Donor not found")
    | some donorIndex =>
      match currentLocalData.donations.get? donorIndex with
      | none => (db, .err "Donor not found")
      | some donor =>
        let newData : LocalDonationData :=
          { donations := currentLocalData.donations.eraseIdx donorIndex,
            overall_total :=
              { amount := roundToTwoDecimals
                  (currentLocalData.overall_total.amount - donor.total_amount),
                donation_count :=
                  currentLocalData.overall_total.donation_count - donor.total_donations },
            metadataLastUpdated := now }
        (some newData, .ok newData)

/-! ## StreamElements normalizer (`goal-manager.ts` lines 88-246) -/

/-- Calendar fields of a parsed date that this module reads
(`getTime`, `getMonth`, `getFullYear`). -/
structure DateParts where
  time : ℤ
  month : ℤ
  year : ℤ
deriving DecidableEq

/-- The `Date` services used by `processStreamElementsData`: a parser for
timestamp strings (`none` = invalid date) and the current week window
`[weekStart, weekEnd)` that `isCurrentWeek` computes from "now" (Sunday
00:00:00 local to the following Sunday). -/
structure DateEnv where
  parts : String → Option DateParts
  weekStart : ℤ
  weekEnd : ℤ

/-- `isCurrentMonth(dateStr, currentMonth, currentYear)` (lines 255-258);
an invalid date has NaN fields and compares false. -/
def isCurrentMonth (env : DateEnv) (dateStr : String) (currentMonth currentYear : ℤ) : Bool :=
  match env.parts dateStr with
  | some p => p.month == currentMonth && p.year == currentYear
  | none => false

/-- `isCurrentWeek(dateStr)` (lines 265-276): `weekStart <= date < weekEnd`. -/
def isCurrentWeek (env : DateEnv) (dateStr : String) : Bool :=
  match env.parts dateStr with
  | some p => decide (env.weekStart ≤ p.time ∧ p.time < env.weekEnd)
  | none => false

/-- `'monthly' | 'weekly'` summary types. -/
inductive SummaryKind where
  | monthly : SummaryKind
  | weekly : SummaryKind
deriving DecidableEq

/-- The StreamElements configuration fields the normalizer reads. -/
structure StreamElementsConfig where
  prime : ℚ
  tier1 : ℚ
  tier2 : ℚ
  tier3 : ℚ
  bitsValue : ℚ
  summaryType : Option SummaryKind
deriving DecidableEq

/-- `isInCurrentPeriod(timestamp)` (lines 98-102), where `summaryType`
already includes the `|| 'monthly'` default. -/
def isInCurrentPeriod (env : DateEnv) (summaryType : SummaryKind)
    (currentMonth currentYear : ℤ) (timestamp : String) : Bool :=
  match summaryType with
  | .monthly => isCurrentMonth env timestamp currentMonth currentYear
  | .weekly => isCurrentWeek env timestamp

/-- A recent subscription event of the session payload. -/
structure SESub where
  name : String
  tier : String
  createdAt : String
deriving DecidableEq

/-- A recent cheer event. -/
structure SECheer where
  name : String
  amount : ℚ
  createdAt : String
deriving DecidableEq

/-- A recent tip event (`amount` already numeric; the source also accepts a
decimal string and applies `parseFloat`). -/
structure SETip where
  name : String
  amount : ℚ
  createdAt : String
deriving DecidableEq

/-- `subscriber-gifted-latest`. -/
structure SEGifted where
  name : String
  tier : String
  sender : String
deriving DecidableEq

/-- A `*-goal` summary entry. -/
structure SEGoal where
  amount : ℚ
deriving DecidableEq

/-- The fields of `seData.data` that the normalizer reads; `none` models an
absent field. -/
structure SESessionData where
  subscriberRecent : Option (List SESub)
  cheerRecent : Option (List SECheer)
  tipRecent : Option (List SETip)
  subscriberGiftedLatest : Option SEGifted
  cheerGoal : Option SEGoal
  subscriberGoal : Option SEGoal
  tipGoal : Option SEGoal

/-- The shape `processStreamElementsData` reads from its `previousData`
argument (`previousData?.donations`, `previousData?.localDonations`). -/
structure SEPreviousData where
  donations : List DonationData
  localDonations : Option LocalDonationData

/-- `StreamElementsResult`: donor list plus overall total. -/
structure StreamElementsResult where
  donations : List DonationData
  overall_total : OverallTotal
deriving DecidableEq

/-- Lines 104-131: start from the previous donors, filter out donations
outside the current period, drop donors left empty, and recompute donor and
overall totals from the remaining donations. -/
def seInitialResult (env : DateEnv) (summaryType : SummaryKind)
    (currentMonth currentYear : ℤ) (previousData : Option SEPreviousData) :
    StreamElementsResult :=
  let filterDonor := fun (donor : DonationData) =>
    let remaining := donor.individual_donations.filter
      (fun d => isInCurrentPeriod env summaryType currentMonth currentYear d.timestamp)
    { donor with individual_donations := remaining }
  let kept : List DonationData :=
    match previousData with
    | some prev =>
      (prev.donations.map filterDonor).filter
        (fun donor => donor.individual_donations.length > 0)
    | none => []
  -- `seResult.donations.forEach(donor => { ...recalculate... })`
  let recalced := kept.map fun (donor : DonationData) =>
    let total := roundToTwoDecimals
      (donor.individual_donations.foldl (fun sum d => safeAdd sum d.amount) 0)
    { donor with
      total_amount := total,
      total_donations := (donor.individual_donations.length : ℤ) }
  { donations := recalced,
    overall_total :=
      { amount := recalced.foldl (fun acc donor => safeAdd acc donor.total_amount) 0,
        donation_count := recalced.foldl (fun acc donor => acc + donor.total_donations) 0 } }

/-- The `addDonation` helper (lines 136-181) acting on the accumulating
result.  The duplicate check compares the raw `amount` argument against
stored amounts; the stored donation amount is rounded. -/
def seAddDonation (previousData : Option SEPreviousData) (name : String)
    (amount : ℚ) (timestamp : String) (donationType : DonationKind)
    (subTier : Option String) (seResult : StreamElementsResult) :
    StreamElementsResult :=
  let matchesName := fun (d : DonationData) => jsToLower d.name == jsToLower name
  -- `let donor = seResult.donations.find(...)`; if absent, seed from the
  -- previous local-donation record of the same name and push it
  let seeded := seResult.donations.any matchesName
  let seedDonor : DonationData :=
    let localDonor :=
      match previousData with
      | some prev =>
        match prev.localDonations with
        | some ld => ld.donations.find? matchesName
        | none => none
      | none => none
    { name := name,
      individual_donations := (localDonor.map (·.individual_donations)).getD [],
      total_amount := roundToTwoDecimals ((localDonor.map (·.total_amount)).getD 0),
      total_donations := (localDonor.map (·.total_donations)).getD 0 }
  let step := fun (donor : DonationData) =>
    let duplicate := donor.individual_donations.any fun d =>
      d.amount == amount && d.timestamp == timestamp
    if duplicate then (donor, false)
    else
      let numericAmount := roundToTwoDecimals amount
      ({ donor with
          individual_donations := donor.individual_donations ++
            [{ amount := numericAmount, timestamp := timestamp,
               donationType := some donationType, subTier := subTier }],
          total_amount := safeAdd donor.total_amount numericAmount,
          total_donations := donor.total_donations + 1 }, true)
  if seeded then
    -- mutate the found donor in place
    let donations' := updateFirst matchesName (fun d => (step d).1) seResult.donations
    let added :=
      match seResult.donations.find? matchesName with
      | some d => (step d).2
      | none => false
    { donations := donations',
      overall_total :=
        if added then
          { amount := safeAdd seResult.overall_total.amount (roundToTwoDecimals amount),
            donation_count := seResult.overall_total.donation_count + 1 }
        else seResult.overall_total }
  else
    let (donor', added) := step seedDonor
    { donations := seResult.donations ++ [donor'],
      overall_total :=
        if added then
          { amount := safeAdd seResult.overall_total.amount (roundToTwoDecimals amount),
            donation_count := seResult.overall_total.donation_count + 1 }
        else seResult.overall_total }

/-- Subscription tier value selection (lines 186-190). -/
def seSubValue (config : StreamElementsConfig) (tier : String) : ℚ :=
  if tier == "2000" then config.tier2
  else if tier == "3000" then config.tier3
  else if tier == "prime" then config.prime
  else config.tier1

/-- Processing of one `subscriber-recent` event (lines 184-200); the second
component accumulates `subscriberTotal`. -/
def seProcessSub (env : DateEnv) (summaryType : SummaryKind)
    (currentMonth currentYear : ℤ) (config : StreamElementsConfig)
    (gifted : Option SEGifted) (previousData : Option SEPreviousData)
    (acc : StreamElementsResult × ℚ) (sub : SESub) : StreamElementsResult × ℚ :=
  if isInCurrentPeriod env summaryType currentMonth currentYear sub.createdAt then
    let subValue := seSubValue config sub.tier
    let isGifted :=
      match gifted with
      | some g => g.name == sub.name && g.tier == sub.tier
      | none => false
    let donorName :=
      match gifted with
      | some g => if isGifted then g.sender else sub.name
      | none => sub.name
    (seAddDonation previousData donorName subValue sub.createdAt .subscription
      (some sub.tier) acc.1, acc.2 + subValue)
  else acc

/-- Processing of one `cheer-recent` event (lines 203-209). -/
def seProcessCheer (env : DateEnv) (summaryType : SummaryKind)
    (currentMonth currentYear : ℤ) (config : StreamElementsConfig)
    (previousData : Option SEPreviousData)
    (acc : StreamElementsResult × ℚ) (cheer : SECheer) : StreamElementsResult × ℚ :=
  if isInCurrentPeriod env summaryType currentMonth currentYear cheer.createdAt then
    let cheerValue := cheer.amount * config.bitsValue
    (seAddDonation previousData cheer.name cheerValue cheer.createdAt .bits none acc.1,
      acc.2 + cheerValue)
  else acc

/-- Processing of one `tip-recent` event (lines 212-218). -/
def seProcessTip (env : DateEnv) (summaryType : SummaryKind)
    (currentMonth currentYear : ℤ) (previousData : Option SEPreviousData)
    (acc : StreamElementsResult × ℚ) (tip : SETip) : StreamElementsResult × ℚ :=
  if isInCurrentPeriod env summaryType currentMonth currentYear tip.createdAt then
    (seAddDonation previousData tip.name tip.amount tip.createdAt .tip none acc.1,
      acc.2 + tip.amount)
  else acc

/-- Lines 220-234: compare reconstructed totals against the period goal
summaries and add any shortfall straight onto the overall total. -/
def seApplyGoalAdjustments (config : StreamElementsConfig) (seData : SESessionData)
    (subscriberTotal cheerTotal tipTotal : ℚ)
    (seResult : StreamElementsResult) : StreamElementsResult :=
  let cheerGoal := match seData.cheerGoal with
    | some g => g.amount * config.bitsValue
    | none => 0
  let subscriberGoal := match seData.subscriberGoal with
    | some g => g.amount * config.tier1
    | none => 0
  let tipGoal := match seData.tipGoal with
    | some g => g.amount
    | none => 0
  let a1 := if cheerGoal > cheerTotal
    then seResult.overall_total.amount + (cheerGoal - cheerTotal)
    else seResult.overall_total.amount
  let a2 := if subscriberGoal > subscriberTotal
    then a1 + (subscriberGoal - subscriberTotal)
    else a1
  let a3 := if tipGoal > tipTotal then a2 + (tipGoal - tipTotal) else a2
  { seResult with overall_total := { seResult.overall_total with amount := a3 } }

/-- Lines 236-243: sort each donor's donations newest first and donors by
total amount descending (`Array.prototype.sort` modelled by a merge sort
with the comparator's ordering; an unparsable timestamp sorts with time
0). -/
def seSortResult (env : DateEnv) (seResult : StreamElementsResult) :
    StreamElementsResult :=
  let timeOf := fun (s : String) => ((env.parts s).map (·.time)).getD 0
  let sortDonor := fun (donor : DonationData) =>
    let sorted := donor.individual_donations.mergeSort
      (fun a b => decide (timeOf b.timestamp ≤ timeOf a.timestamp))
    { donor with individual_donations := sorted }
  let donations' := (seResult.donations.map sortDonor).mergeSort
    (fun a b => decide (b.total_amount ≤ a.total_amount))
  { seResult with donations := donations' }

/-- `processStreamElementsData(seData, previousData, currentMonth,
currentYear, config)` (lines 88-246). -/
def processStreamElementsData (env : DateEnv) (seData : SESessionData)
    (previousData : Option SEPreviousData) (currentMonth currentYear : ℤ)
    (config : StreamElementsConfig) : StreamElementsResult :=
  -- `const summaryType = config.summaryType || 'monthly';`
  let summaryType := config.summaryType.getD .monthly
  let seResult := seInitialResult env summaryType currentMonth currentYear previousData
  let afterSubs := (seData.subscriberRecent.getD []).foldl
    (seProcessSub env summaryType currentMonth currentYear config
      seData.subscriberGiftedLatest previousData) (seResult, 0)
  let afterCheers := (seData.cheerRecent.getD []).foldl
    (seProcessCheer env summaryType currentMonth currentYear config previousData)
    (afterSubs.1, 0)
  let afterTips := (seData.tipRecent.getD []).foldl
    (seProcessTip env summaryType currentMonth currentYear previousData)
    (afterCheers.1, 0)
  let adjusted := seApplyGoalAdjustments config seData afterSubs.2 afterCheers.2
    afterTips.2 afterTips.1
  seSortResult env adjusted

/-! ## Extra Life normalizer (`goal-manager.ts` lines 915-1035) -/

/-- A processed Extra Life donation. -/
structure ExtraLifeDonation where
  amount : ℚ
  displayName : String
  message : String
  donationID : String
  createdDateUTC : String
  eventID : String
deriving DecidableEq

/-- A raw donation record from the donations endpoint (`displayName` and
`message` may be absent or empty). -/
structure ExtraLifeRawDonation where
  amount : ℚ
  displayName : Option String
  message : Option String
  donationID : String
  createdDateUTC : String
  eventID : String
deriving DecidableEq

/-- `ProcessedExtraLifeData.metadata`. -/
structure ExtraLifeMetadata where
  lastUpdated : String
  participantId : String
  eventID : String
deriving DecidableEq

/-- `ProcessedExtraLifeData`. -/
structure ProcessedExtraLifeData where
  sumDonations : ℚ
  fundraisingGoal : ℚ
  donations : List ExtraLifeDonation
  newDonations : Option (List ExtraLifeDonation)
  metadata : ExtraLifeMetadata
deriving DecidableEq

/-- The participant endpoint response fields that are read. -/
structure ExtraLifeParticipantData where
  sumDonations : ℚ
  fundraisingGoal : ℚ
  eventID : String
deriving DecidableEq

/-- JavaScript `x || d` for a numeric `x` (0 and NaN are falsy; on exact
rationals only 0). -/
def jsOrQ (x d : ℚ) : ℚ := if x == 0 then d else x

/-- JavaScript `s || d` for an optional string (absent or empty falls back). -/
def jsOrStr (s : Option String) (d : String) : String :=
  match s with
  | some v => if v == "" then d else v
  | none => d

/-- Line 977-984: normalize one raw donation record. -/
def normalizeExtraLifeDonation (donation : ExtraLifeRawDonation) : ExtraLifeDonation :=
  { amount := donation.amount,
    displayName := jsOrStr donation.displayName "Anonymous",
    message := jsOrStr donation.message "",
    donationID := donation.donationID,
    createdDateUTC := donation.createdDateUTC,
    eventID := donation.eventID }

/-- `pollExtraLife(participantId)` (lines 915-1035) on the success path: the
two network responses are passed as arguments, `timeOf` models
`new Date(s).getTime()` for the final recency sort, `configGoal` is
`goalState.config.donationGoal`.  Returns the processed data the function
computes and stores (`none` when polling is skipped for lack of a
participant ID). -/
def pollExtraLife (timeOf : String → ℤ) (now : String) (configGoal : ℚ)
    (participantId : String) (previousData : Option ProcessedExtraLifeData)
    (participantData : ExtraLifeParticipantData)
    (donations : List ExtraLifeRawDonation) : Option ProcessedExtraLifeData :=
  -- `if (!participantId) return null;`
  if participantId == "" then none
  else
    -- `const hasParticipantChanged = previousData && previousData.metadata.participantId !== participantId;`
    let hasParticipantChanged :=
      match previousData with
      | some prev => prev.metadata.participantId != participantId
      | none => false
    -- `if (!hasParticipantChanged && previousData && ...) return previousData;`
    let unchanged :=
      match previousData with
      | some prev =>
        !hasParticipantChanged &&
        prev.sumDonations == participantData.sumDonations &&
        prev.fundraisingGoal == participantData.fundraisingGoal &&
        prev.metadata.eventID == participantData.eventID
      | none => false
    if unchanged then previousData
    else
      let validDonations := (donations.map normalizeExtraLifeDonation).filter
        (fun donation => donation.eventID == participantData.eventID)
      let merged : List ExtraLifeDonation × Option (List ExtraLifeDonation) :=
        match previousData with
        | some prev =>
          if !hasParticipantChanged then
            let previousValidDonations := prev.donations.filter
              (fun donation => donation.eventID == participantData.eventID)
            let existingDonationIds := previousValidDonations.map (·.donationID)
            let newDonations := validDonations.filter
              (fun donation => !existingDonationIds.contains donation.donationID)
            (previousValidDonations ++ newDonations,
             if newDonations.length > 0 then some newDonations else none)
          else
            (validDonations,
             if validDonations.length > 0 then some validDonations else none)
        | none =>
          (validDonations,
           if validDonations.length > 0 then some validDonations else none)
      -- `processedData.donations.sort((a, b) => time(b) - time(a))`
      let sorted := merged.1.mergeSort
        (fun a b => decide (timeOf b.createdDateUTC ≤ timeOf a.createdDateUTC))
      some
        { sumDonations := jsOrQ participantData.sumDonations 0,
          fundraisingGoal := jsOrQ participantData.fundraisingGoal configGoal,
          donations := sorted,
          newDonations := merged.2,
          metadata :=
            { lastUpdated := now, participantId := participantId,
              eventID := participantData.eventID } }

/-! ## Periodic goal reset (`goal-manager.ts` lines 306-364) -/

/-- The calendar fields of one polling instant that
`resetGoalValuesIfNeeded` reads (`getTime`, `getFullYear`, `getMonth`,
`getDate`, `getDay`), together with a week index used only to state which
instants share a Sunday-to-Saturday week. -/
structure PollInstant where
  time : ℤ
  year : ℤ
  month : ℤ
  date : ℤ
  day : ℤ
  week : ℤ
deriving DecidableEq

/-- Two instants on the same calendar date. -/
def sameCalendarDate (p q : PollInstant) : Prop :=
  p.year = q.year ∧ p.month = q.month ∧ p.date = q.date ∧ p.day = q.day

/-- Same accounting period: same week for weekly summaries, same calendar
month for monthly summaries. -/
def samePeriod : SummaryKind → PollInstant → PollInstant → Prop
  | .weekly, p, q => p.week = q.week
  | .monthly, p, q => p.year = q.year ∧ p.month = q.month

instance : ∀ p q, Decidable (sameCalendarDate p q) := fun _ _ => by
  unfold sameCalendarDate; infer_instance

instance : ∀ st p q, Decidable (samePeriod st p q) := fun st _ _ => by
  cases st <;> (unfold samePeriod; infer_instance)

/-- The boundary-day test of `resetGoalValuesIfNeeded`: Sunday
(`now.getDay() === 0`) for weekly summaries, the 1st
(`now.getDate() === 1`) for monthly summaries. -/
def resetBoundaryCond : SummaryKind → PollInstant → Bool
  | .weekly, now => now.day == 0
  | .monthly, now => now.date == 1

/-- One successful run of `resetGoalValuesIfNeeded` (lines 306-364): reads
the stored `lastGoalReset` instant (`none` when the key is absent, which
takes the catch branch and forces a reset), fires the API reset when due
and records "now".  Returns the new stored value and whether the reset
call was issued. -/
def resetGoalValuesIfNeeded (summaryType : SummaryKind) (now : PollInstant)
    (lastReset : Option PollInstant) : Option PollInstant × Bool :=
  let shouldReset :=
    match lastReset with
    | none => true
    | some lr => resetBoundaryCond summaryType now && !(lr.date == now.date)
  if shouldReset then (some now, true) else (lastReset, false)

/-- A sequence of successful polls: for each instant, the flag of whether
the reset fired and the stored `lastGoalReset` after that poll. -/
def runGoalResets (summaryType : SummaryKind) :
    Option PollInstant → List PollInstant → List (Bool × Option PollInstant)
  | _, [] => []
  | s, t :: ts =>
    let r := resetGoalValuesIfNeeded summaryType t s
    (r.2, r.1) :: runGoalResets summaryType r.1 ts

/-! ## Claim theorems -/

/-- Claim C7, counterexample: the claim states that `safeAdd` returns
`roundCurrency(a*100 + b*100)/100` — round the cent sum, then divide.  At
`a = 0.005, b = 0` that formula yields `0.005`, while the code rounds after
the division and returns `0.01`. -/
theorem safeAdd_formula_counterexample :
    safeAdd (1/200) 0 = 1/100 ∧
    roundToTwoDecimals ((1/200) * 100 + 0 * 100) / 100 = 1/200 ∧
    safeAdd (1/200) 0 ≠ roundToTwoDecimals ((1/200) * 100 + 0 * 100) / 100 := by
  refine ⟨?_, ?_, ?_⟩ <;> norm_num [safeAdd, roundToTwoDecimals]

/-- Claim C7, amended: `safeAdd(a, b)` returns
`roundCurrency((a*100 + b*100)/100)`: the operands are scaled to cents,
summed, divided back by 100 and only then rounded to two decimal places —
in exact arithmetic the scaling cancels, so the result is the plain sum
rounded to two decimals. -/
theorem safeAdd_eq_roundTwoDecimals_add (a b : ℚ) :
    safeAdd a b = roundToTwoDecimals (a + b) :=
  safeAdd_eq_round_add a b

/-- Claim C8: folding amounts with at most two decimal places through
`safeAdd` from 0 gives the exact decimal sum rounded to two places, the
fold is invariant under reordering, and `safeAdd` is commutative (and, on
two-decimal inputs, associative). -/
theorem foldl_safeAdd_exact_and_order_independent (l : List ℚ)
    (hl : ∀ x ∈ l, Is2Dec x) :
    l.foldl safeAdd 0 = roundToTwoDecimals l.sum ∧
    (∀ l' : List ℚ, l.Perm l' → l'.foldl safeAdd 0 = l.foldl safeAdd 0) ∧
    (∀ a b : ℚ, safeAdd a b = safeAdd b a) ∧
    (∀ a b c : ℚ, Is2Dec a → Is2Dec b → Is2Dec c →
      safeAdd (safeAdd a b) c = safeAdd a (safeAdd b c)) := by
  have hsum : Is2Dec l.sum := Is2Dec.sum hl
  have hfold : l.foldl safeAdd 0 = l.sum := by
    rw [foldl_safeAdd_eq_sum Is2Dec.zero hl, zero_add]
  refine ⟨?_, ?_, ?_, ?_⟩
  · rw [hfold, roundToTwoDecimals_of_Is2Dec hsum]
  · intro l' hperm
    have hl' : ∀ x ∈ l', Is2Dec x := fun x hx => hl x (hperm.symm.subset hx)
    have hfold' : l'.foldl safeAdd 0 = l'.sum := by
      rw [foldl_safeAdd_eq_sum Is2Dec.zero hl', zero_add]
    rw [hfold, hfold', hperm.sum_eq]
  · intro a b
    rw [safeAdd_eq_round_add, safeAdd_eq_round_add, add_comm]
  · intro a b c ha hb hc
    rw [safeAdd_of_Is2Dec ha hb, safeAdd_of_Is2Dec hb hc,
      safeAdd_of_Is2Dec (ha.add hb) hc, safeAdd_of_Is2Dec ha (hb.add hc), add_assoc]

/-- Witness for C8 at the concrete list `[0.50, 0.75]`. -/
theorem foldl_safeAdd_exact_and_order_independent_witness :
    (∀ x ∈ [(1:ℚ)/2, 3/4], Is2Dec x) ∧
    ([(1:ℚ)/2, 3/4].foldl safeAdd 0 = roundToTwoDecimals ([(1:ℚ)/2, 3/4].sum) ∧
     (∀ l' : List ℚ, [(1:ℚ)/2, 3/4].Perm l' →
       l'.foldl safeAdd 0 = [(1:ℚ)/2, 3/4].foldl safeAdd 0) ∧
     (∀ a b : ℚ, safeAdd a b = safeAdd b a) ∧
     (∀ a b c : ℚ, Is2Dec a → Is2Dec b → Is2Dec c →
       safeAdd (safeAdd a b) c = safeAdd a (safeAdd b c))) := by
  have h2 : ∀ x ∈ [(1:ℚ)/2, 3/4], Is2Dec x := by
    intro x hx
    simp only [List.mem_cons, List.not_mem_nil, or_false] at hx
    rcases hx with rfl | rfl
    · exact ⟨50, by norm_num⟩
    · exact ⟨75, by norm_num⟩
  exact ⟨h2, foldl_safeAdd_exact_and_order_independent [(1:ℚ)/2, 3/4] h2⟩

/-- Claim C1: when the stored data for a source deep-equals the new
normalized payload (date-aware comparison via `isEqual`), `syncExternalData`
writes nothing — the stored document, `updatedAt` included, is returned
unchanged — and the call returns `false`. -/
theorem syncExternalData_skips_equal_payload
    (pd : String → Option ℤ) (now : String) (source : SourceKey) (newData : Json)
    (doc : GoalDoc) (slot : SourceSlot)
    (hslot : doc.getSlot source = some slot)
    (htruthy : jsFalsy slot.data = false)
    (heq : isEqual pd slot.data newData = true) :
    syncExternalData pd now source newData (some doc) = (some doc, false) := by
  simp [syncExternalData, hslot, htruthy, heq]

/-- Date parser for the C1 witness: two ISO spellings of the same
instant. -/
def c1WitnessPd : String → Option ℤ := fun s =>
  if s == "2024-01-01T00:00:00Z" || s == "2024-01-01T00:00:00.000Z" then
    some 1704067200000
  else none

/-- Stored StreamElements slot for the C1 witness. -/
def c1WitnessSlot : SourceSlot :=
  { lastUpdated := "2024-01-01T00:00:05Z", lastGoalReset := some "2024-01-01T00:00:00Z",
    data := Json.obj [("lastUpdated", Json.str "2024-01-01T00:00:00Z"),
                      ("active", Json.bool true)] }

/-- Stored document for the C1 witness. -/
def c1WitnessDoc : GoalDoc :=
  { uuid := "uuid-1", config := none, overlayInstance := "overlay-1",
    createdAt := "2023-12-31T00:00:00Z", updatedAt := some "2024-01-01T00:00:05Z",
    streamElements := some c1WitnessSlot, extraLife := none, localDonations := none }

/-- New payload for the C1 witness: deep-equal to the stored data up to the
date-string spelling. -/
def c1WitnessNew : Json :=
  Json.obj [("lastUpdated", Json.str "2024-01-01T00:00:00.000Z"),
            ("active", Json.bool true)]

/-- Witness for C1: the concrete sync is skipped and the document (with its
`updatedAt`) is unchanged. -/
theorem syncExternalData_skips_equal_payload_witness :
    syncExternalData c1WitnessPd "2024-02-02T00:00:00Z" SourceKey.streamElements
      c1WitnessNew (some c1WitnessDoc) = (some c1WitnessDoc, false) := by
  apply syncExternalData_skips_equal_payload c1WitnessPd _ _ _ _ c1WitnessSlot
  · rfl
  · rfl
  · simp [c1WitnessSlot, c1WitnessNew, c1WitnessPd, isEqual, isEqualFields,
      jsGet, jsStrictEq, jsFalsy, jsIsObjectType, jsKeys]

/-- Claim C10: on an absent ledger document, `updateLocalDonation` with a
positive amount initializes a fresh empty set holding the new donation as
its single entry, while `removeLocalDonation` and `resetUserDonations` fail
with "No local donation data found" and write nothing. -/
theorem absent_ledger_document_behaviour (pd : String → Option ℤ)
    (name : String) (amount : ℚ) (now ts user : String) (h : 0 < amount) :
    updateLocalDonation pd name amount now none =
      (some { donations :=
                [{ name := name,
                   individual_donations :=
                     [{ amount := roundToTwoDecimals amount, timestamp := now,
                        donationType := some .localKind, subTier := none }],
                   total_amount := roundToTwoDecimals amount,
                   total_donations := 1 }],
              overall_total := { amount := roundToTwoDecimals amount,
                                 donation_count := 1 },
              metadataLastUpdated := now },
        .ok { donations :=
                [{ name := name,
                   individual_donations :=
                     [{ amount := roundToTwoDecimals amount, timestamp := now,
                        donationType := some .localKind, subTier := none }],
                   total_amount := roundToTwoDecimals amount,
                   total_donations := 1 }],
              overall_total := { amount := roundToTwoDecimals amount,
                                 donation_count := 1 },
              metadataLastUpdated := now }) ∧
    removeLocalDonation ts now none = (none, .err "No local donation data found") ∧
    resetUserDonations user now none = (none, .err "No local donation data found") := by
  refine ⟨?_, rfl, rfl⟩
  have hnot : ¬ amount ≤ 0 := not_le.mpr h
  have hsa : safeAdd 0 (roundToTwoDecimals amount) = roundToTwoDecimals amount := by
    rw [safeAdd_of_Is2Dec Is2Dec.zero (Is2Dec.round amount), zero_add]
  simp [updateLocalDonation, hnot, emptyLocalData, updateFirst, hsa]

/-- Witness for C10 at `addDonation("Ada", 25)` on an absent document. -/
theorem absent_ledger_document_behaviour_witness :
    (0 : ℚ) < 25 ∧
    (updateLocalDonation (fun _ => none) "Ada" 25 "2024-03-01T10:00:00Z" none).2 =
      .ok { donations :=
              [{ name := "Ada",
                 individual_donations :=
                   [{ amount := roundToTwoDecimals 25,
                      timestamp := "2024-03-01T10:00:00Z",
                      donationType := some .localKind, subTier := none }],
                 total_amount := roundToTwoDecimals 25,
                 total_donations := 1 }],
            overall_total := { amount := roundToTwoDecimals 25, donation_count := 1 },
            metadataLastUpdated := "2024-03-01T10:00:00Z" } ∧
    removeLocalDonation "t" "n" none = (none, .err "No local donation data found") ∧
    resetUserDonations "Ada" "n" none = (none, .err "No local donation data found") := by
  have h := absent_ledger_document_behaviour (fun _ => none) "Ada" 25
    "2024-03-01T10:00:00Z" "t" "Ada" (by norm_num)
  refine ⟨by norm_num, ?_, ?_, ?_⟩
  · rw [h.1]
  · exact absent_ledger_document_behaviour (fun _ => none) "x" 1 "n" "t" "Ada"
      (by norm_num) |>.2.1
  · exact absent_ledger_document_behaviour (fun _ => none) "x" 1 "n" "t" "Ada"
      (by norm_num) |>.2.2

/-! ## Helper lemmas about the ledger primitives -/

theorem updateFirst_decomp {α : Type} {p : α → Bool} {l : List α}
    (h : l.any p = true) :
    ∃ l1 x l2, l = l1 ++ x :: l2 ∧ p x = true ∧ (∀ y ∈ l1, p y = false) ∧
      ∀ f : α → α, updateFirst p f l = l1 ++ f x :: l2 := by
  induction l with
  | nil => simp at h
  | cons a t ih =>
    by_cases hp : p a = true
    · exact ⟨[], a, t, rfl, hp, by simp, fun f => by simp [updateFirst, hp]⟩
    · have hpa : p a = false := by simpa using hp
      have ht : t.any p = true := by
        rcases List.any_eq_true.mp h with ⟨x, hx, hpx⟩
        rcases List.mem_cons.mp hx with hx | hx
        · exact absurd (hx ▸ hpx) (by simp [hpa])
        · exact List.any_eq_true.mpr ⟨x, hx, hpx⟩
      obtain ⟨l1, x, l2, hsplit, hpx, hl1, hupd⟩ := ih ht
      refine ⟨a :: l1, x, l2, by simp [hsplit], hpx, ?_, fun f => ?_⟩
      · intro y hy
        rcases List.mem_cons.mp hy with hy | hy
        · exact hy ▸ hpa
        · exact hl1 y hy
      · simp [updateFirst, hpa, hupd f]

theorem sum_map_eraseIdx {α : Type} {β : Type} [AddCommGroup β] (g : α → β) :
    ∀ (l : List α) (i : ℕ) (x : α), l.get? i = some x →
      ((l.eraseIdx i).map g).sum = (l.map g).sum - g x := by
  intro l
  induction l with
  | nil => intro i x h; simp at h
  | cons a t ih =>
    intro i x h
    cases i with
    | zero =>
      simp only [List.get?] at h
      cases h
      simp [List.eraseIdx]
    | succ n =>
      simp only [List.get?] at h
      rw [List.eraseIdx_cons_succ, List.map_cons, List.sum_cons, ih n x h,
        List.map_cons, List.sum_cons]
      abel

theorem sum_map_set {α : Type} {β : Type} [AddCommGroup β] (g : α → β) :
    ∀ (l : List α) (i : ℕ) (x y : α), l.get? i = some x →
      ((l.set i y).map g).sum = (l.map g).sum - g x + g y := by
  intro l
  induction l with
  | nil => intro i x y h; simp at h
  | cons a t ih =>
    intro i x y h
    cases i with
    | zero =>
      simp only [List.get?] at h
      cases h
      simp [List.set]
      abel
    | succ n =>
      simp only [List.get?] at h
      rw [List.set_cons_succ, List.map_cons, List.sum_cons, ih n x y h,
        List.map_cons, List.sum_cons]
      abel

theorem findIdx?_some_spec {α : Type} {p : α → Bool} {l : List α} {i : ℕ}
    (h : l.findIdx? p = some i) : ∃ x, l.get? i = some x ∧ p x = true := by
  obtain ⟨hlt, hidx⟩ := List.findIdx?_eq_some_iff_findIdx_eq.mp h
  refine ⟨l.get ⟨i, hlt⟩, List.get?_eq_get hlt, ?_⟩
  have hw : List.findIdx p l < l.length := hidx ▸ hlt
  have := @List.findIdx_getElem _ p l hw
  simpa [List.get_eq_getElem, hidx] using this

/-- `findDonationIndices` returns `none` exactly when no donation carries
the timestamp. -/
theorem findDonationIndices_eq_none_iff {ts : String} {l : List DonationData} :
    findDonationIndices ts l = none ↔
      ∀ donor ∈ l, ∀ d ∈ donor.individual_donations, d.timestamp ≠ ts := by
  induction l with
  | nil => simp [findDonationIndices]
  | cons a t ih =>
    simp only [findDonationIndices]
    constructor
    · intro h donor hmem d hd
      rcases List.mem_cons.mp hmem with hmem | hmem
      · subst hmem
        cases htail : findDonationIndices ts t with
        | none =>
          rw [htail] at h
          cases hfind : donor.individual_donations.findIdx?
              (fun d => d.timestamp == ts) with
          | none =>
            have := List.findIdx?_eq_none_iff.mp hfind d hd
            simpa using this
          | some j => rw [hfind] at h; simp at h
        | some v => rw [htail] at h; rcases v with ⟨i, j⟩; simp at h
      · cases htail : findDonationIndices ts t with
        | none => exact (ih.mp htail) donor hmem d hd
        | some v => rw [htail] at h; rcases v with ⟨i, j⟩; simp at h
    · intro h
      have htail : findDonationIndices ts t = none :=
        ih.mpr fun donor hm d hd => h donor (by simp [hm]) d hd
      rw [htail]
      have hhead : a.individual_donations.findIdx? (fun d => d.timestamp == ts) = none :=
        List.findIdx?_eq_none_iff.mpr fun d hd => by
          simpa using h a (by simp) d hd
      rw [hhead]

/-- When `findDonationIndices` locates a pair of indices, they address a
donor whose first matching donation has the sought timestamp. -/
theorem findDonationIndices_some_spec {ts : String} :
    ∀ {l : List DonationData} {i j : ℕ}, findDonationIndices ts l = some (i, j) →
      ∃ donor, l.get? i = some donor ∧
        donor.individual_donations.findIdx? (fun d => d.timestamp == ts) = some j := by
  intro l
  induction l with
  | nil => intro i j h; simp [findDonationIndices] at h
  | cons a t ih =>
    intro i j h
    simp only [findDonationIndices] at h
    cases htail : findDonationIndices ts t with
    | some v =>
      rcases v with ⟨i', j'⟩
      rw [htail] at h
      simp only [Option.some.injEq, Prod.mk.injEq] at h
      obtain ⟨hi, hj⟩ := h
      obtain ⟨donor, hget, hfind⟩ := ih htail
      subst hj
      refine ⟨donor, ?_, hfind⟩
      cases hi
      simpa using hget
    | none =>
      rw [htail] at h
      cases hfind : a.individual_donations.findIdx? (fun d => d.timestamp == ts) with
      | none => rw [hfind] at h; simp at h
      | some j' =>
        rw [hfind] at h
        simp only [Option.some.injEq, Prod.mk.injEq] at h
        obtain ⟨hi, hj⟩ := h
        subst hj
        cases hi
        exact ⟨a, rfl, hfind⟩

/-! ## A named characterization of `updateLocalDonation` -/

/-- The donation record `updateLocalDonation` creates. -/
def newLocalDonation (amount : ℚ) (now : String) : IndividualDonation :=
  { amount := roundToTwoDecimals amount, timestamp := now,
    donationType := some .localKind, subTier := none }

/-- Case-insensitive donor-name match. -/
def localDonationMatches (name : String) (d : DonationData) : Bool :=
  jsToLower d.name == jsToLower name

/-- The duplicate test of `updateLocalDonation`: same case-insensitive
donor, identical rounded amount, timestamps within 5 seconds. -/
def localDupCheck (pd : String → Option ℤ) (name : String) (amount : ℚ)
    (now : String) (cur : LocalDonationData) : Bool :=
  cur.donations.any fun donor =>
    localDonationMatches name donor &&
    donor.individual_donations.any fun d =>
      match pd d.timestamp, pd (newLocalDonation amount now).timestamp with
      | some t1, some t2 =>
        d.amount == (newLocalDonation amount now).amount && (t1 - t2).natAbs < 5000
      | _, _ => false

/-- Appending the new donation to a donor record and updating its totals. -/
def localApply (newDon : IndividualDonation) (donor : DonationData) : DonationData :=
  { donor with
    individual_donations := donor.individual_donations ++ [newDon],
    total_amount := safeAdd donor.total_amount newDon.amount,
    total_donations := donor.total_donations + 1 }

/-- The data `updateLocalDonation` stores on its success path. -/
def updatedLocalData (name : String) (amount : ℚ) (now : String)
    (cur : LocalDonationData) : LocalDonationData :=
  let newDon := newLocalDonation amount now
  let donations' :=
    if cur.donations.any (localDonationMatches name) then
      updateFirst (localDonationMatches name) (localApply newDon) cur.donations
    else
      cur.donations ++
        [localApply newDon
          { name := name, individual_donations := [],
            total_amount := 0, total_donations := 0 }]
  { donations := donations',
    overall_total :=
      { amount := safeAdd cur.overall_total.amount newDon.amount,
        donation_count := cur.overall_total.donation_count + 1 },
    metadataLastUpdated := now }

/-- `updateLocalDonation` in terms of the named pieces. -/
theorem updateLocalDonation_spec (pd : String → Option ℤ) (name : String)
    (amount : ℚ) (now : String) (db : Option LocalDonationData) :
    updateLocalDonation pd name amount now db =
      (if amount ≤ 0 then (db, .err "Donation amount must be greater than 0")
       else if localDupCheck pd name amount now (db.getD (emptyLocalData now)) then
         (db, .nullRes)
       else (some (updatedLocalData name amount now (db.getD (emptyLocalData now))),
         .ok (updatedLocalData name amount now (db.getD (emptyLocalData now))))) := rfl

/-! ## Ledger invariants (claim C2) -/

/-- Per-donor invariant: totals agree with the donation list, the list is
non-empty, and every stored amount has at most two decimals. -/
def donorWf (d : DonationData) : Prop :=
  d.total_amount = (d.individual_donations.map (·.amount)).sum ∧
  d.total_donations = (d.individual_donations.length : ℤ) ∧
  d.individual_donations ≠ [] ∧
  ∀ don ∈ d.individual_donations, Is2Dec don.amount

/-- Ledger invariant: every donor satisfies `donorWf` and the overall total
is the element-wise sum over donors. -/
def localWf (s : LocalDonationData) : Prop :=
  (∀ d ∈ s.donations, donorWf d) ∧
  s.overall_total.amount = (s.donations.map (·.total_amount)).sum ∧
  s.overall_total.donation_count = (s.donations.map (·.total_donations)).sum

/-- The invariant on the stored document (absent document is fine). -/
def ledgerWf : Option LocalDonationData → Prop
  | none => True
  | some s => localWf s

theorem localWf_empty (now : String) : localWf (emptyLocalData now) := by
  refine ⟨?_, ?_, ?_⟩ <;> simp [emptyLocalData]

theorem donorWf.total_Is2Dec {d : DonationData} (h : donorWf d) :
    Is2Dec d.total_amount := by
  rw [h.1]
  exact Is2Dec.sum fun x hx => by
    obtain ⟨don, hdon, rfl⟩ := List.mem_map.mp hx
    exact h.2.2.2 don hdon

theorem localWf.overall_Is2Dec {s : LocalDonationData} (h : localWf s) :
    Is2Dec s.overall_total.amount := by
  rw [h.2.1]
  exact Is2Dec.sum fun x hx => by
    obtain ⟨d, hd, rfl⟩ := List.mem_map.mp hx
    exact (h.1 d hd).total_Is2Dec


theorem localWf_of_parts {dons : List DonationData} {amt : ℚ} {cnt : ℤ} {now : String}
    (h1 : ∀ d ∈ dons, donorWf d)
    (h2 : amt = (dons.map (·.total_amount)).sum)
    (h3 : cnt = (dons.map (·.total_donations)).sum) :
    localWf { donations := dons, overall_total := { amount := amt, donation_count := cnt },
              metadataLastUpdated := now } :=
  ⟨h1, h2, h3⟩

theorem localApply_wf {newDon : IndividualDonation} (hnd : Is2Dec newDon.amount)
    {donor : DonationData} (hwf : donorWf donor) :
    donorWf (localApply newDon donor) := by
  refine ⟨?_, ?_, ?_, ?_⟩
  · show safeAdd donor.total_amount newDon.amount = _
    rw [safeAdd_of_Is2Dec hwf.total_Is2Dec hnd, hwf.1]
    simp [localApply]
  · simp [localApply, hwf.2.1]
  · simp [localApply]
  · intro don hdon
    simp only [localApply, List.mem_append, List.mem_singleton] at hdon
    rcases hdon with hdon | rfl
    · exact hwf.2.2.2 don hdon
    · exact hnd

theorem updatedLocalData_wf (name : String) (amount : ℚ) (now : String)
    (cur : LocalDonationData) (hcur : localWf cur) :
    localWf (updatedLocalData name amount now cur) := by
  have hndAmt : Is2Dec (newLocalDonation amount now).amount := Is2Dec.round amount
  unfold updatedLocalData
  dsimp only
  by_cases hmatch : cur.donations.any (localDonationMatches name) = true
  · rw [if_pos hmatch]
    obtain ⟨l1, x, l2, hsplit, hpx, -, hupd⟩ := updateFirst_decomp hmatch
    rw [hupd (localApply (newLocalDonation amount now))]
    have hxwf : donorWf x := hcur.1 x (by rw [hsplit]; simp)
    have hxtot : (localApply (newLocalDonation amount now) x).total_amount =
        x.total_amount + (newLocalDonation amount now).amount := by
      show safeAdd x.total_amount (newLocalDonation amount now).amount = _
      exact safeAdd_of_Is2Dec hxwf.total_Is2Dec hndAmt
    have hxcnt : (localApply (newLocalDonation amount now) x).total_donations =
        x.total_donations + 1 := rfl
    refine localWf_of_parts ?_ ?_ ?_
    · intro d hd
      rw [List.mem_append, List.mem_cons] at hd
      rcases hd with hd | rfl | hd
      · exact hcur.1 d (by rw [hsplit]; simp [hd])
      · exact localApply_wf hndAmt hxwf
      · exact hcur.1 d (by rw [hsplit]; simp [hd])
    · rw [safeAdd_of_Is2Dec hcur.overall_Is2Dec hndAmt, hcur.2.1, hsplit]
      simp only [List.map_append, List.sum_append, List.map_cons, List.sum_cons, hxtot]
      ring
    · rw [hcur.2.2, hsplit]
      simp only [List.map_append, List.sum_append, List.map_cons, List.sum_cons, hxcnt]
      ring
  · rw [if_neg hmatch]
    have hbase : (localApply (newLocalDonation amount now)
        (DonationData.mk name [] 0 0)).total_amount =
        (newLocalDonation amount now).amount := by
      show safeAdd 0 (newLocalDonation amount now).amount = _
      rw [safeAdd_of_Is2Dec Is2Dec.zero hndAmt, zero_add]
    have hfresh : donorWf (localApply (newLocalDonation amount now)
        (DonationData.mk name [] 0 0)) := by
      refine ⟨?_, ?_, ?_, ?_⟩
      · rw [hbase]
        simp [localApply]
      · simp [localApply]
      · simp [localApply]
      · intro don hdon
        simp only [localApply, List.nil_append, List.mem_singleton] at hdon
        exact hdon ▸ hndAmt
    refine localWf_of_parts ?_ ?_ ?_
    · intro d hd
      rw [List.mem_append, List.mem_singleton] at hd
      rcases hd with hd | rfl
      · exact hcur.1 d hd
      · exact hfresh
    · rw [safeAdd_of_Is2Dec hcur.overall_Is2Dec hndAmt, hcur.2.1]
      simp only [List.map_append, List.sum_append, List.map_cons, List.sum_cons,
        List.map_nil, List.sum_nil, hbase]
      ring
    · rw [hcur.2.2]
      have : (localApply (newLocalDonation amount now)
          (DonationData.mk name [] 0 0)).total_donations = 1 := rfl
      simp only [List.map_append, List.sum_append, List.map_cons, List.sum_cons,
        List.map_nil, List.sum_nil, this]
      ring

theorem updateLocalDonation_preserves_wf (pd : String → Option ℤ) (name : String)
    (amount : ℚ) (now : String) (db : Option LocalDonationData)
    (h : ledgerWf db) : ledgerWf (updateLocalDonation pd name amount now db).1 := by
  rw [updateLocalDonation_spec]
  by_cases hneg : amount ≤ 0
  · simpa [hneg] using h
  · rw [if_neg hneg]
    by_cases hdup : localDupCheck pd name amount now (db.getD (emptyLocalData now)) = true
    · simpa [hdup] using h
    · rw [if_neg hdup]
      show ledgerWf (some (updatedLocalData name amount now (db.getD (emptyLocalData now))))
      have hcur : localWf (db.getD (emptyLocalData now)) := by
        cases db with
        | none => exact localWf_empty now
        | some s => exact h
      exact updatedLocalData_wf name amount now _ hcur

/-- The data `removeLocalDonation` stores on its success path, given the
located indices, donor and donation. -/
def removedLocalData (cur : LocalDonationData) (i j : ℕ) (donor : DonationData)
    (removed : IndividualDonation) (now : String) : LocalDonationData :=
  let donor' : DonationData :=
    { donor with
      individual_donations := donor.individual_donations.eraseIdx j,
      total_amount := donor.total_amount - removed.amount,
      total_donations := donor.total_donations - 1 }
  { donations :=
      if donor'.individual_donations.length == 0 then cur.donations.eraseIdx i
      else cur.donations.set i donor',
    overall_total :=
      { amount := cur.overall_total.amount - removed.amount,
        donation_count := cur.overall_total.donation_count - 1 },
    metadataLastUpdated := now }

/-- `removeLocalDonation` on the success path, in terms of
`removedLocalData`. -/
theorem removeLocalDonation_spec (ts now : String) (cur : LocalDonationData)
    {i j : ℕ} {donor : DonationData} {removed : IndividualDonation}
    (hfind : findDonationIndices ts cur.donations = some (i, j))
    (hdonor : cur.donations.get? i = some donor)
    (hrem : donor.individual_donations.get? j = some removed) :
    removeLocalDonation ts now (some cur) =
      (some (removedLocalData cur i j donor removed now),
       .ok (removedLocalData cur i j donor removed now)) := by
  unfold removeLocalDonation
  simp only [hfind, hdonor, hrem]
  rfl

theorem removeLocalDonation_preserves_wf (ts now : String)
    (db : Option LocalDonationData) (h : ledgerWf db) :
    ledgerWf (removeLocalDonation ts now db).1 := by
  cases db with
  | none => exact h
  | some cur =>
    cases hfind : findDonationIndices ts cur.donations with
    | none =>
      unfold removeLocalDonation
      dsimp only
      rw [hfind]
      exact h
    | some v =>
      rcases v with ⟨i, j⟩
      obtain ⟨donor, hdonor, hfindIdx⟩ := findDonationIndices_some_spec hfind
      obtain ⟨removed, hrem, hts⟩ := findIdx?_some_spec hfindIdx
      rw [removeLocalDonation_spec ts now cur hfind hdonor hrem]
      show localWf (removedLocalData cur i j donor removed now)
      have hdmem : donor ∈ cur.donations := by
        obtain ⟨hlt, hget⟩ := List.get?_eq_some.mp hdonor
        exact hget ▸ List.get_mem _ _ _
      have hdwf : donorWf donor := h.1 donor hdmem
      have hjlt : j < donor.individual_donations.length := by
        obtain ⟨hlt, _⟩ := List.get?_eq_some.mp hrem
        exact hlt
      have hrmem : removed ∈ donor.individual_donations := by
        obtain ⟨hlt, hget⟩ := List.get?_eq_some.mp hrem
        exact hget ▸ List.get_mem _ _ _
      have hsumErase : ((donor.individual_donations.eraseIdx j).map (·.amount)).sum =
          (donor.individual_donations.map (·.amount)).sum - removed.amount :=
        sum_map_eraseIdx _ _ j removed hrem
      have hlenErase : (donor.individual_donations.eraseIdx j).length =
          donor.individual_donations.length - 1 := by
        rw [List.length_eraseIdx]
        simp [hjlt]
      have hlenPos : 1 ≤ donor.individual_donations.length := Nat.one_le_of_lt
        (Nat.lt_of_lt_of_le hjlt (le_refl _)) |>.trans (le_refl _)
      unfold removedLocalData
      dsimp only
      by_cases hzero : ((donor.individual_donations.eraseIdx j).length == 0) = true
      · rw [if_pos hzero]
        -- the donor had a single donation: it is removed entirely
        have hlen1 : donor.individual_donations.length = 1 := by
          have h0 : (donor.individual_donations.eraseIdx j).length = 0 := by
            simpa using hzero
          omega
        have hdonTot : donor.total_amount = removed.amount := by
          obtain ⟨a, ha⟩ := List.length_eq_one.mp hlen1
          have : removed = a := by
            have hj0 : j = 0 := by omega
            rw [hj0, ha] at hrem
            simpa using hrem.symm
          rw [hdwf.1, ha, this]
          simp
        have hdonCnt : donor.total_donations = 1 := by
          rw [hdwf.2.1, hlen1]
          norm_num
        refine localWf_of_parts ?_ ?_ ?_
        · intro d hd
          exact h.1 d (List.mem_of_mem_eraseIdx hd)
        · rw [h.2.1, sum_map_eraseIdx _ _ i donor hdonor, hdonTot]
        · rw [h.2.2, sum_map_eraseIdx _ _ i donor hdonor, hdonCnt]
      · rw [if_neg hzero]
        have hne : (donor.individual_donations.eraseIdx j) ≠ [] := by
          intro hnil
          apply hzero
          simp [hnil]
        have hdwf' : donorWf
            { donor with
              individual_donations := donor.individual_donations.eraseIdx j,
              total_amount := donor.total_amount - removed.amount,
              total_donations := donor.total_donations - 1 } := by
          refine ⟨?_, ?_, ?_, ?_⟩
          · show donor.total_amount - removed.amount = _
            rw [hdwf.1, hsumErase]
          · show donor.total_donations - 1 = _
            rw [hdwf.2.1]
            show _ = ((donor.individual_donations.eraseIdx j).length : ℤ)
            rw [hlenErase]
            push_cast [hlenPos]
            ring
          · exact hne
          · intro don hdon
            exact hdwf.2.2.2 don (List.mem_of_mem_eraseIdx hdon)
        refine localWf_of_parts ?_ ?_ ?_
        · intro d hd
          rcases List.mem_or_eq_of_mem_set hd with hd | rfl
          · exact h.1 d hd
          · exact hdwf'
        · rw [h.2.1, sum_map_set _ _ i donor _ hdonor]
          show _ = _ - donor.total_amount + (donor.total_amount - removed.amount)
          ring
        · rw [h.2.2, sum_map_set _ _ i donor _ hdonor]
          show _ = _ - donor.total_donations + (donor.total_donations - 1)
          ring

theorem resetUserDonations_preserves_wf (user now : String)
    (db : Option LocalDonationData) (h : ledgerWf db) :
    ledgerWf (resetUserDonations user now db).1 := by
  cases db with
  | none => exact h
  | some cur =>
    cases hfind : cur.donations.findIdx?
        (fun donor => jsToLower donor.name == jsToLower user) with
    | none =>
      unfold resetUserDonations
      dsimp only
      rw [hfind]
      exact h
    | some di =>
      obtain ⟨donor, hdonor, -⟩ := findIdx?_some_spec hfind
      unfold resetUserDonations
      simp only [hfind, hdonor]
      show localWf _
      have hdmem : donor ∈ cur.donations := by
        obtain ⟨hlt, hget⟩ := List.get?_eq_some.mp hdonor
        exact hget ▸ List.get_mem _ _ _
      have hdwf : donorWf donor := h.1 donor hdmem
      have hdiff2 : Is2Dec (cur.overall_total.amount - donor.total_amount) :=
        h.overall_Is2Dec.sub hdwf.total_Is2Dec
      refine localWf_of_parts ?_ ?_ ?_
      · intro d hd
        exact h.1 d (List.mem_of_mem_eraseIdx hd)
      · rw [roundToTwoDecimals_of_Is2Dec hdiff2, h.2.1,
          sum_map_eraseIdx _ _ di donor hdonor]
      · rw [h.2.2, sum_map_eraseIdx _ _ di donor hdonor]

/-- Claim C2: each local-ledger mutation (`updateLocalDonation`,
`removeLocalDonation`, `resetUserDonations`, `resetLocalData`) preserves the
ledger invariant: every remaining donor's `total_amount`/`total_donations`
equal the sum/count of its `individual_donations`, no donor with zero
donations remains, and the overall total is the element-wise sum over
donors (the invariant also records that all stored amounts have two
decimals, which the mutations maintain). -/
theorem ledger_mutations_preserve_invariants (pd : String → Option ℤ)
    (name : String) (amount : ℚ) (now ts user : String)
    (db : Option LocalDonationData) (h : ledgerWf db) :
    ledgerWf (updateLocalDonation pd name amount now db).1 ∧
    ledgerWf (removeLocalDonation ts now db).1 ∧
    ledgerWf (resetUserDonations user now db).1 ∧
    ledgerWf (resetLocalData now db) :=
  ⟨updateLocalDonation_preserves_wf pd name amount now db h,
   removeLocalDonation_preserves_wf ts now db h,
   resetUserDonations_preserves_wf user now db h,
   localWf_empty now⟩

/-- A concrete well-formed one-donor ledger used by witnesses. -/
def witnessLedger : LocalDonationData :=
  { donations :=
      [{ name := "Bob",
         individual_donations :=
           [{ amount := 5, timestamp := "2024-03-01T10:00:00Z",
              donationType := some .localKind, subTier := none }],
         total_amount := 5, total_donations := 1 }],
    overall_total := { amount := 5, donation_count := 1 },
    metadataLastUpdated := "2024-03-01T10:00:00Z" }

theorem witnessLedger_wf : ledgerWf (some witnessLedger) := by
  refine ⟨?_, by simp [witnessLedger], by simp [witnessLedger]⟩
  intro d hd
  simp only [witnessLedger, List.mem_singleton] at hd
  subst hd
  refine ⟨by simp, by simp, by simp, ?_⟩
  intro don hdon
  simp only [List.mem_singleton] at hdon
  subst hdon
  exact ⟨500, by norm_num⟩

/-- Witness for C2 on a concrete one-donor ledger. -/
theorem ledger_mutations_preserve_invariants_witness :
    ledgerWf (some witnessLedger) ∧
    (ledgerWf ((updateLocalDonation (fun _ => none) "Ada" 25 "2024-03-02T10:00:00Z"
        (some witnessLedger)).1) ∧
     ledgerWf ((removeLocalDonation "2024-03-01T10:00:00Z" "2024-03-02T10:00:00Z"
        (some witnessLedger)).1) ∧
     ledgerWf ((resetUserDonations "bob" "2024-03-02T10:00:00Z"
        (some witnessLedger)).1) ∧
     ledgerWf (resetLocalData "2024-03-02T10:00:00Z" (some witnessLedger))) := by
  have h0 := witnessLedger_wf
  exact ⟨h0, ledger_mutations_preserve_invariants (fun _ => none) "Ada" 25
    "2024-03-02T10:00:00Z" "2024-03-01T10:00:00Z" "bob" (some witnessLedger) h0⟩

/-- Claim C4: `removeLocalDonation` fails with "Donation not found" and
leaves the stored document unchanged when no donation carries the
timestamp; otherwise it removes the located donation, subtracts its amount
from the owning donor's totals and the overall totals, and removes the
donor entirely when its donation list becomes empty. -/
theorem removeLocalDonation_correct (ts now : String) (cur : LocalDonationData) :
    ((∀ donor ∈ cur.donations, ∀ d ∈ donor.individual_donations, d.timestamp ≠ ts) →
      removeLocalDonation ts now (some cur) = (some cur, .err "Donation not found")) ∧
    (∀ (i j : ℕ) (donor : DonationData) (removed : IndividualDonation),
      findDonationIndices ts cur.donations = some (i, j) →
      cur.donations.get? i = some donor →
      donor.individual_donations.get? j = some removed →
      removed.timestamp = ts ∧
      removeLocalDonation ts now (some cur) =
        (some (removedLocalData cur i j donor removed now),
         .ok (removedLocalData cur i j donor removed now)) ∧
      (removedLocalData cur i j donor removed now).overall_total.amount =
        cur.overall_total.amount - removed.amount ∧
      (removedLocalData cur i j donor removed now).overall_total.donation_count =
        cur.overall_total.donation_count - 1 ∧
      (donor.individual_donations.length = 1 →
        (removedLocalData cur i j donor removed now).donations =
          cur.donations.eraseIdx i) ∧
      (1 < donor.individual_donations.length →
        (removedLocalData cur i j donor removed now).donations =
          cur.donations.set i
            { donor with
              individual_donations := donor.individual_donations.eraseIdx j,
              total_amount := donor.total_amount - removed.amount,
              total_donations := donor.total_donations - 1 })) := by
  constructor
  · intro hnone
    have hfind : findDonationIndices ts cur.donations = none :=
      findDonationIndices_eq_none_iff.mpr hnone
    unfold removeLocalDonation
    dsimp only
    rw [hfind]
  · intro i j donor removed hfind hdonor hrem
    have hjlt : j < donor.individual_donations.length :=
      (List.get?_eq_some.mp hrem).1
    have hts : removed.timestamp = ts := by
      obtain ⟨donor0, hdonor0, hfi⟩ := findDonationIndices_some_spec hfind
      rw [hdonor] at hdonor0
      cases Option.some.inj hdonor0
      obtain ⟨x, hx, hpx⟩ := findIdx?_some_spec hfi
      rw [hrem] at hx
      cases Option.some.inj hx
      exact eq_of_beq hpx
    refine ⟨hts, removeLocalDonation_spec ts now cur hfind hdonor hrem, rfl, rfl, ?_, ?_⟩
    · intro hlen1
      unfold removedLocalData
      dsimp only
      rw [if_pos]
      simp only [beq_iff_eq, List.length_eraseIdx, hjlt, if_true]
      omega
    · intro hlen
      unfold removedLocalData
      dsimp only
      rw [if_neg]
      simp only [beq_iff_eq, List.length_eraseIdx, hjlt, if_true]
      omega

/-- Grace's single donation for the C4 witness. -/
def graceDonation : IndividualDonation :=
  { amount := 7, timestamp := "2024-03-05T09:00:00Z",
    donationType := some .localKind, subTier := none }

/-- Grace's donor record for the C4 witness. -/
def graceDonor : DonationData :=
  { name := "Grace", individual_donations := [graceDonation],
    total_amount := 7, total_donations := 1 }

/-- Ledger holding only Grace for the C4 witness. -/
def graceLedger : LocalDonationData :=
  { donations := [graceDonor],
    overall_total := { amount := 7, donation_count := 1 },
    metadataLastUpdated := "2024-03-05T09:00:00Z" }

/-- Witness for C4: removing Grace's only donation removes the donor
entirely and decrements the overall totals by its amount. -/
theorem removeLocalDonation_correct_witness :
    removeLocalDonation "2024-03-05T09:00:00Z" "2024-03-06T09:00:00Z"
        (some graceLedger) =
      (some (removedLocalData graceLedger 0 0 graceDonor graceDonation
          "2024-03-06T09:00:00Z"),
       .ok (removedLocalData graceLedger 0 0 graceDonor graceDonation
          "2024-03-06T09:00:00Z")) ∧
    (removedLocalData graceLedger 0 0 graceDonor graceDonation
        "2024-03-06T09:00:00Z").donations = graceLedger.donations.eraseIdx 0 ∧
    (removedLocalData graceLedger 0 0 graceDonor graceDonation
        "2024-03-06T09:00:00Z").overall_total.amount =
      graceLedger.overall_total.amount - graceDonation.amount := by
  have h := (removeLocalDonation_correct "2024-03-05T09:00:00Z"
    "2024-03-06T09:00:00Z" graceLedger).2 0 0 graceDonor graceDonation
    (by simp [graceLedger, graceDonor, graceDonation, findDonationIndices])
    (by simp [graceLedger]) (by simp [graceDonor])
  exact ⟨h.2.1, h.2.2.2.2.1 (by simp [graceDonor]), h.2.2.1⟩

/-! ## Duplicate suppression (claim C3) -/

/-- Total number of stored individual donations. -/
def donationCount (s : LocalDonationData) : ℕ :=
  (s.donations.map (fun d => d.individual_donations.length)).sum

/-- Donation count of the stored document (0 when absent). -/
def storedDonationCount : Option LocalDonationData → ℕ
  | none => 0
  | some s => donationCount s

theorem storedDonationCount_getD (db : Option LocalDonationData) (now : String) :
    storedDonationCount db = donationCount (db.getD (emptyLocalData now)) := by
  cases db with
  | none => simp [storedDonationCount, donationCount, emptyLocalData]
  | some s => rfl

/-- When the duplicate window matches, `updateLocalDonation` is a silent
no-op returning `null`. -/
theorem updateLocalDonation_dup_nullRes (pd : String → Option ℤ) (name : String)
    (amount : ℚ) (now : String) (st : LocalDonationData) (donor : DonationData)
    (d : IndividualDonation) (t1 t2 : ℤ)
    (hneg : ¬ amount ≤ 0)
    (hmem : donor ∈ st.donations) (hname : jsToLower donor.name = jsToLower name)
    (hd : d ∈ donor.individual_donations)
    (hamt : d.amount = roundToTwoDecimals amount)
    (ht1 : pd d.timestamp = some t1) (ht2 : pd now = some t2)
    (hwin : (t1 - t2).natAbs < 5000) :
    updateLocalDonation pd name amount now (some st) = (some st, .nullRes) := by
  have hdup : localDupCheck pd name amount now ((some st).getD (emptyLocalData now)) = true := by
    show localDupCheck pd name amount now st = true
    unfold localDupCheck
    refine List.any_eq_true.mpr ⟨donor, hmem, ?_⟩
    rw [Bool.and_eq_true]
    refine ⟨?_, ?_⟩
    · exact beq_iff_eq.mpr hname
    · refine List.any_eq_true.mpr ⟨d, hd, ?_⟩
      show (match pd d.timestamp, pd now with
        | some t1, some t2 =>
          d.amount == roundToTwoDecimals amount && (t1 - t2).natAbs < 5000
        | _, _ => false) = true
      rw [ht1, ht2]
      simp [hamt, hwin]
  rw [updateLocalDonation_spec, if_neg hneg, if_pos hdup]

/-- A successful `updateLocalDonation` stores the new donation under a donor
with the same case-insensitive name, and stores exactly one more donation
than before. -/
theorem updateLocalDonation_ok_shape (pd : String → Option ℤ) (name : String)
    (amount : ℚ) (now : String) (db : Option LocalDonationData)
    (st1 : LocalDonationData)
    (h : updateLocalDonation pd name amount now db = (some st1, .ok st1)) :
    (∃ donor ∈ st1.donations,
        jsToLower donor.name = jsToLower name ∧
        newLocalDonation amount now ∈ donor.individual_donations) ∧
    donationCount st1 = storedDonationCount db + 1 := by
  rw [updateLocalDonation_spec] at h
  by_cases hneg : amount ≤ 0
  · rw [if_pos hneg] at h
    simp at h
  · rw [if_neg hneg] at h
    by_cases hdup : localDupCheck pd name amount now (db.getD (emptyLocalData now)) = true
    · rw [if_pos hdup] at h
      simp at h
    · rw [if_neg hdup] at h
      have hst : st1 = updatedLocalData name amount now (db.getD (emptyLocalData now)) := by
        have := (Prod.mk.injEq _ _ _ _).mp h
        exact (Option.some.inj this.1).symm
      subst hst
      rw [storedDonationCount_getD db now]
      generalize db.getD (emptyLocalData now) = cur
      clear h hdup
      constructor
      · unfold updatedLocalData
        dsimp only
        by_cases hmatch : cur.donations.any (localDonationMatches name) = true
        · rw [if_pos hmatch]
          obtain ⟨l1, x, l2, hsplit, hpx, -, hupd⟩ := updateFirst_decomp hmatch
          rw [hupd]
          refine ⟨localApply (newLocalDonation amount now) x, by simp, ?_, ?_⟩
          · show jsToLower x.name = jsToLower name
            exact eq_of_beq hpx
          · simp [localApply]
        · rw [if_neg hmatch]
          refine ⟨localApply (newLocalDonation amount now)
            (DonationData.mk name [] 0 0), by simp, by simp [localApply], ?_⟩
          simp [localApply]
      · unfold updatedLocalData donationCount
        dsimp only
        by_cases hmatch : cur.donations.any (localDonationMatches name) = true
        · rw [if_pos hmatch]
          obtain ⟨l1, x, l2, hsplit, hpx, -, hupd⟩ := updateFirst_decomp hmatch
          rw [hupd, hsplit]
          have : (localApply (newLocalDonation amount now) x).individual_donations.length =
              x.individual_donations.length + 1 := by simp [localApply]
          simp only [List.map_append, List.sum_append, List.map_cons, List.sum_cons, this]
          ring
        · rw [if_neg hmatch]
          have : (localApply (newLocalDonation amount now)
              (DonationData.mk name [] 0 0)).individual_donations.length = 1 := by
            simp [localApply]
          simp only [List.map_append, List.sum_append, List.map_cons, List.sum_cons,
            List.map_nil, List.sum_nil, this]
          ring

/-- Claim C3: a donation matching an existing one (same case-insensitive
donor, identical rounded amount, timestamps within 5 seconds) is silently
dropped with a `null` result and no state change; consequently, submitting
the identical donation twice within 5 seconds stores exactly one
donation. -/
theorem duplicate_local_donation_suppressed (pd : String → Option ℤ)
    (name : String) (amount : ℚ) :
    (∀ (now : String) (st : LocalDonationData) (donor : DonationData)
       (d : IndividualDonation) (t1 t2 : ℤ),
       ¬ amount ≤ 0 →
       donor ∈ st.donations → jsToLower donor.name = jsToLower name →
       d ∈ donor.individual_donations →
       d.amount = roundToTwoDecimals amount →
       pd d.timestamp = some t1 → pd now = some t2 →
       (t1 - t2).natAbs < 5000 →
       updateLocalDonation pd name amount now (some st) = (some st, .nullRes)) ∧
    (∀ (now1 now2 : String) (db : Option LocalDonationData)
       (st1 : LocalDonationData) (t1 t2 : ℤ),
       updateLocalDonation pd name amount now1 db = (some st1, .ok st1) →
       pd now1 = some t1 → pd now2 = some t2 →
       (t1 - t2).natAbs < 5000 →
       updateLocalDonation pd name amount now2 (some st1) = (some st1, .nullRes) ∧
       donationCount st1 = storedDonationCount db + 1) := by
  constructor
  · intro now st donor d t1 t2 hneg hmem hname hd hamt ht1 ht2 hwin
    exact updateLocalDonation_dup_nullRes pd name amount now st donor d t1 t2
      hneg hmem hname hd hamt ht1 ht2 hwin
  · intro now1 now2 db st1 t1 t2 hok ht1 ht2 hwin
    have hneg : ¬ amount ≤ 0 := by
      intro hle
      rw [updateLocalDonation_spec, if_pos hle] at hok
      simp at hok
    obtain ⟨⟨donor, hmem, hname, hdon⟩, hcount⟩ :=
      updateLocalDonation_ok_shape pd name amount now1 db st1 hok
    refine ⟨?_, hcount⟩
    exact updateLocalDonation_dup_nullRes pd name amount now2 st1 donor
      (newLocalDonation amount now1) t1 t2 hneg hmem hname hdon rfl ht1 ht2 hwin

/-- Date parser for the C3 witness: the two submission instants 3 seconds
apart. -/
def c3Pd : String → Option ℤ := fun s =>
  if s == "2024-03-01T10:00:00Z" then some 1000
  else if s == "2024-03-01T10:00:03Z" then some 4000
  else none

/-- Ledger state after the first submission of the C3 witness. -/
def c3FirstState : LocalDonationData :=
  updatedLocalData "Ada" 25 "2024-03-01T10:00:00Z"
    (emptyLocalData "2024-03-01T10:00:00Z")

/-- Witness for C3: `addDonation("Ada", 25)` twice 3 seconds apart stores
exactly one donation; the second call is a `null` no-op. -/
theorem duplicate_local_donation_suppressed_witness :
    updateLocalDonation c3Pd "Ada" 25 "2024-03-01T10:00:00Z" none =
      (some c3FirstState, .ok c3FirstState) ∧
    updateLocalDonation c3Pd "Ada" 25 "2024-03-01T10:00:03Z" (some c3FirstState) =
      (some c3FirstState, .nullRes) ∧
    donationCount c3FirstState = storedDonationCount none + 1 := by
  have hok : updateLocalDonation c3Pd "Ada" 25 "2024-03-01T10:00:00Z" none =
      (some c3FirstState, .ok c3FirstState) := by
    have hdupf : ¬ localDupCheck c3Pd "Ada" 25 "2024-03-01T10:00:00Z"
        ((none : Option LocalDonationData).getD
          (emptyLocalData "2024-03-01T10:00:00Z")) = true := by
      simp [localDupCheck, emptyLocalData]
    rw [updateLocalDonation_spec, if_neg (by norm_num : ¬ (25:ℚ) ≤ 0), if_neg hdupf]
    rfl
  have h := (duplicate_local_donation_suppressed c3Pd "Ada" 25).2
    "2024-03-01T10:00:00Z" "2024-03-01T10:00:03Z" none c3FirstState 1000 4000
    hok rfl rfl (by norm_num)
  exact ⟨hok, h.1, h.2⟩

/-! ## Period filtering of previous StreamElements donors (claim C6) -/

/-- The per-donor filter of `processStreamElementsData` lines 106-113. -/
def seFilterDonorCode (env : DateEnv) (summaryType : SummaryKind)
    (currentMonth currentYear : ℤ) (donor : DonationData) : DonationData :=
  let remaining := donor.individual_donations.filter
    (fun d => isInCurrentPeriod env summaryType currentMonth currentYear d.timestamp)
  { donor with individual_donations := remaining }

/-- The donor-retention test of line 115. -/
def seHasRemaining (donor : DonationData) : Bool :=
  donor.individual_donations.length > 0

/-- The per-donor recomputation of lines 121-131. -/
def seRecalcDonorCode (donor : DonationData) : DonationData :=
  { donor with
    total_amount := roundToTwoDecimals
      (donor.individual_donations.foldl (fun sum d => safeAdd sum d.amount) 0),
    total_donations := (donor.individual_donations.length : ℤ) }

/-- The donor list of `seInitialResult`, in terms of the named steps. -/
theorem seInitialResult_donations (env : DateEnv) (summaryType : SummaryKind)
    (m y : ℤ) (prev : SEPreviousData) :
    (seInitialResult env summaryType m y (some prev)).donations =
      ((prev.donations.map (seFilterDonorCode env summaryType m y)).filter
        seHasRemaining).map seRecalcDonorCode := rfl

/-- The overall amount of `seInitialResult`. -/
theorem seInitialResult_amount (env : DateEnv) (summaryType : SummaryKind)
    (m y : ℤ) (prev : SEPreviousData) :
    (seInitialResult env summaryType m y (some prev)).overall_total.amount =
      (((prev.donations.map (seFilterDonorCode env summaryType m y)).filter
        seHasRemaining).map seRecalcDonorCode).foldl
          (fun acc donor => safeAdd acc donor.total_amount) 0 := rfl

/-- The overall count of `seInitialResult`. -/
theorem seInitialResult_count (env : DateEnv) (summaryType : SummaryKind)
    (m y : ℤ) (prev : SEPreviousData) :
    (seInitialResult env summaryType m y (some prev)).overall_total.donation_count =
      (((prev.donations.map (seFilterDonorCode env summaryType m y)).filter
        seHasRemaining).map seRecalcDonorCode).foldl
          (fun acc donor => acc + donor.total_donations) 0 := rfl

/-- Spec-side description: previous donors with out-of-period donations
dropped and donors left empty removed. -/
def sePeriodFilteredDonors (env : DateEnv) (summaryType : SummaryKind)
    (currentMonth currentYear : ℤ) (donors : List DonationData) : List DonationData :=
  (donors.map (seFilterDonorCode env summaryType currentMonth currentYear)).filter
    (fun donor => donor.individual_donations ≠ [])

/-- Spec-side description: totals recomputed from the donation list alone. -/
def recomputeTotals (donor : DonationData) : DonationData :=
  { donor with
    total_amount := (donor.individual_donations.map (·.amount)).sum,
    total_donations := (donor.individual_donations.length : ℤ) }

/-- The session payload with no events and no goal summaries. -/
def emptySESessionData : SESessionData :=
  { subscriberRecent := none, cheerRecent := none, tipRecent := none,
    subscriberGiftedLatest := none, cheerGoal := none, subscriberGoal := none,
    tipGoal := none }

theorem foldl_safeAdd_field (l : List IndividualDonation)
    (hl : ∀ d ∈ l, Is2Dec d.amount) :
    l.foldl (fun sum d => safeAdd sum d.amount) 0 = (l.map (·.amount)).sum := by
  rw [← List.foldl_map (·.amount) safeAdd l 0,
    foldl_safeAdd_eq_sum Is2Dec.zero, zero_add]
  intro x hx
  obtain ⟨d, hd, rfl⟩ := List.mem_map.mp hx
  exact hl d hd

theorem foldl_safeAdd_totals (l : List DonationData)
    (hl : ∀ d ∈ l, Is2Dec d.total_amount) :
    l.foldl (fun acc donor => safeAdd acc donor.total_amount) 0 =
      (l.map (·.total_amount)).sum := by
  rw [← List.foldl_map (·.total_amount) safeAdd l 0,
    foldl_safeAdd_eq_sum Is2Dec.zero, zero_add]
  intro x hx
  obtain ⟨d, hd, rfl⟩ := List.mem_map.mp hx
  exact hl d hd

theorem foldl_add_counts (l : List DonationData) :
    l.foldl (fun acc donor => acc + donor.total_donations) 0 =
      (l.map (·.total_donations)).sum := by
  rw [← List.foldl_map (·.total_donations) (· + ·) l 0, ← List.sum_eq_foldl]

/-- Claim C6: `processStreamElementsData` starts from the previous donors
with every out-of-period donation removed, drops donors left with no
donations, and recomputes each retained donor's totals and the overall
totals from the filtered donations alone (and with an event-free session
payload its full result is exactly that filtered start, sorted). -/
theorem processStreamElementsData_starts_from_filtered_previous
    (env : DateEnv) (summaryType : SummaryKind) (m y : ℤ) (prev : SEPreviousData)
    (h2 : ∀ donor ∈ prev.donations, ∀ d ∈ donor.individual_donations, Is2Dec d.amount) :
    (seInitialResult env summaryType m y (some prev)).donations =
      (sePeriodFilteredDonors env summaryType m y prev.donations).map recomputeTotals ∧
    (seInitialResult env summaryType m y (some prev)).overall_total.amount =
      (((sePeriodFilteredDonors env summaryType m y prev.donations).map
        recomputeTotals).map (·.total_amount)).sum ∧
    (seInitialResult env summaryType m y (some prev)).overall_total.donation_count =
      (((sePeriodFilteredDonors env summaryType m y prev.donations).map
        recomputeTotals).map (·.total_donations)).sum ∧
    (∀ config : StreamElementsConfig, config.summaryType = some summaryType →
      processStreamElementsData env emptySESessionData (some prev) m y config =
        seSortResult env (seInitialResult env summaryType m y (some prev))) := by
  have hkept : (prev.donations.map (seFilterDonorCode env summaryType m y)).filter
      seHasRemaining =
      sePeriodFilteredDonors env summaryType m y prev.donations := by
    unfold sePeriodFilteredDonors
    apply List.filter_congr
    intro d _
    show seHasRemaining d = _
    unfold seHasRemaining
    rw [decide_eq_decide]
    exact List.length_pos.trans (by simp)
  have hmem2 : ∀ donor ∈ sePeriodFilteredDonors env summaryType m y prev.donations,
      ∀ d ∈ donor.individual_donations, Is2Dec d.amount := by
    intro donor hmem d hd
    obtain ⟨hmap, -⟩ := List.mem_filter.mp hmem
    obtain ⟨d0, hd0, rfl⟩ := List.mem_map.mp hmap
    have hd' : d ∈ d0.individual_donations := by
      have := hd
      simp only [seFilterDonorCode] at this
      exact (List.mem_filter.mp this).1
    exact h2 d0 hd0 d hd'
  have hmap : ∀ donor ∈ sePeriodFilteredDonors env summaryType m y prev.donations,
      seRecalcDonorCode donor = recomputeTotals donor := by
    intro donor hmem
    unfold seRecalcDonorCode recomputeTotals
    rw [foldl_safeAdd_field donor.individual_donations (hmem2 donor hmem),
      roundToTwoDecimals_of_Is2Dec]
    exact Is2Dec.sum fun x hx => by
      obtain ⟨d, hd, rfl⟩ := List.mem_map.mp hx
      exact hmem2 donor hmem d hd
  have hdonations : (seInitialResult env summaryType m y (some prev)).donations =
      (sePeriodFilteredDonors env summaryType m y prev.donations).map recomputeTotals := by
    rw [seInitialResult_donations, hkept]
    exact List.map_congr_left hmap
  have htot2 : ∀ d ∈ (sePeriodFilteredDonors env summaryType m y prev.donations).map
      recomputeTotals, Is2Dec d.total_amount := by
    intro d hd
    obtain ⟨d0, hd0, rfl⟩ := List.mem_map.mp hd
    show Is2Dec (recomputeTotals d0).total_amount
    unfold recomputeTotals
    exact Is2Dec.sum fun a ha => by
      obtain ⟨dd, hdd, rfl⟩ := List.mem_map.mp ha
      exact hmem2 d0 hd0 dd hdd
  refine ⟨hdonations, ?_, ?_, ?_⟩
  · rw [seInitialResult_amount, hkept, List.map_congr_left hmap,
      foldl_safeAdd_totals _ htot2]
  · rw [seInitialResult_count, hkept, List.map_congr_left hmap, foldl_add_counts]
  · intro config hst
    unfold processStreamElementsData
    rw [hst]
    have hadj : ∀ r : StreamElementsResult,
        seApplyGoalAdjustments config emptySESessionData 0 0 0 r = r := by
      intro r
      unfold seApplyGoalAdjustments emptySESessionData
      norm_num
    simp only [emptySESessionData, Option.getD, List.foldl_nil]
    show seSortResult env (seApplyGoalAdjustments config emptySESessionData 0 0 0
      (seInitialResult env summaryType m y (some prev))) = _
    rw [hadj]

/-- Date environment for the C6 witness: one in-period (March 2024) and
one out-of-period timestamp. -/
def c6Env : DateEnv :=
  { parts := fun s =>
      if s == "2024-03-10T00:00:00Z" then some { time := 100, month := 2, year := 2024 }
      else if s == "2024-01-05T00:00:00Z" then some { time := 50, month := 0, year := 2024 }
      else none,
    weekStart := 0, weekEnd := 1000 }

/-- Previous StreamElements donors for the C6 witness. -/
def c6Prev : SEPreviousData :=
  { donations :=
      [{ name := "Ann",
         individual_donations :=
           [{ amount := 5, timestamp := "2024-03-10T00:00:00Z",
              donationType := some .tip, subTier := none },
            { amount := 3, timestamp := "2024-01-05T00:00:00Z",
              donationType := some .tip, subTier := none }],
         total_amount := 8, total_donations := 2 }],
    localDonations := none }

/-- Configuration for the C6 witness (monthly summaries). -/
def c6Config : StreamElementsConfig :=
  { prime := 5, tier1 := 5, tier2 := 10, tier3 := 25, bitsValue := 1/100,
    summaryType := some .monthly }

/-- Witness for C6 at the concrete environment and previous data. -/
theorem processStreamElementsData_starts_from_filtered_previous_witness :
    (seInitialResult c6Env .monthly 2 2024 (some c6Prev)).donations =
      (sePeriodFilteredDonors c6Env .monthly 2 2024 c6Prev.donations).map
        recomputeTotals ∧
    (seInitialResult c6Env .monthly 2 2024 (some c6Prev)).overall_total.amount =
      (((sePeriodFilteredDonors c6Env .monthly 2 2024 c6Prev.donations).map
        recomputeTotals).map (·.total_amount)).sum ∧
    (seInitialResult c6Env .monthly 2 2024 (some c6Prev)).overall_total.donation_count =
      (((sePeriodFilteredDonors c6Env .monthly 2 2024 c6Prev.donations).map
        recomputeTotals).map (·.total_donations)).sum ∧
    processStreamElementsData c6Env emptySESessionData (some c6Prev) 2 2024 c6Config =
      seSortResult c6Env (seInitialResult c6Env .monthly 2 2024 (some c6Prev)) := by
  have h2 : ∀ donor ∈ c6Prev.donations, ∀ d ∈ donor.individual_donations,
      Is2Dec d.amount := by
    intro donor hdonor d hd
    simp only [c6Prev, List.mem_singleton] at hdonor
    subst hdonor
    simp only [List.mem_cons, List.not_mem_nil, or_false] at hd
    rcases hd with rfl | rfl
    · exact ⟨500, by norm_num⟩
    · exact ⟨300, by norm_num⟩
  have T := processStreamElementsData_starts_from_filtered_previous c6Env .monthly
    2 2024 c6Prev h2
  exact ⟨T.1, T.2.1, T.2.2.1, T.2.2.2 c6Config rfl⟩

/-- Claim C5: when the configured participant ID differs from the one
recorded in the stored data, `pollExtraLife` ignores the entire stored
history — its result is the same as polling with no previous data at all —
and the resulting donations list holds exactly the fetched donations of the
new participant's current event. -/
theorem pollExtraLife_participant_switch (timeOf : String → ℤ) (now : String)
    (configGoal : ℚ) (pid : String) (prev : ProcessedExtraLifeData)
    (participantData : ExtraLifeParticipantData)
    (donations : List ExtraLifeRawDonation)
    (hpid : pid ≠ "") (hchanged : prev.metadata.participantId ≠ pid) :
    pollExtraLife timeOf now configGoal pid (some prev) participantData donations =
      pollExtraLife timeOf now configGoal pid none participantData donations ∧
    ∃ r, pollExtraLife timeOf now configGoal pid (some prev) participantData
        donations = some r ∧
      r.donations.Perm ((donations.map normalizeExtraLifeDonation).filter
        (fun d => d.eventID == participantData.eventID)) ∧
      (∀ d ∈ r.donations, d.eventID = participantData.eventID) ∧
      r.metadata.participantId = pid := by
  have hb1 : (pid == "") = false := by simp [hpid]
  have hb2 : (prev.metadata.participantId != pid) = true := by simp [hchanged]
  have hb3 : (prev.metadata.participantId == pid) = false := by simp [hchanged]
  have hmain : pollExtraLife timeOf now configGoal pid (some prev) participantData
      donations =
      some { sumDonations := jsOrQ participantData.sumDonations 0,
             fundraisingGoal := jsOrQ participantData.fundraisingGoal configGoal,
             donations := ((donations.map normalizeExtraLifeDonation).filter
               (fun d => d.eventID == participantData.eventID)).mergeSort
               (fun a b => decide (timeOf b.createdDateUTC ≤ timeOf a.createdDateUTC)),
             newDonations :=
               if ((donations.map normalizeExtraLifeDonation).filter
                   (fun d => d.eventID == participantData.eventID)).length > 0 then
                 some ((donations.map normalizeExtraLifeDonation).filter
                   (fun d => d.eventID == participantData.eventID))
               else none,
             metadata := { lastUpdated := now, participantId := pid,
                           eventID := participantData.eventID } } := by
    unfold pollExtraLife
    simp [hb1, hb2, hb3]
  have hnone : pollExtraLife timeOf now configGoal pid none participantData
      donations =
      some { sumDonations := jsOrQ participantData.sumDonations 0,
             fundraisingGoal := jsOrQ participantData.fundraisingGoal configGoal,
             donations := ((donations.map normalizeExtraLifeDonation).filter
               (fun d => d.eventID == participantData.eventID)).mergeSort
               (fun a b => decide (timeOf b.createdDateUTC ≤ timeOf a.createdDateUTC)),
             newDonations :=
               if ((donations.map normalizeExtraLifeDonation).filter
                   (fun d => d.eventID == participantData.eventID)).length > 0 then
                 some ((donations.map normalizeExtraLifeDonation).filter
                   (fun d => d.eventID == participantData.eventID))
               else none,
             metadata := { lastUpdated := now, participantId := pid,
                           eventID := participantData.eventID } } := by
    unfold pollExtraLife
    simp [hb1]
  refine ⟨hmain.trans hnone.symm, ?_⟩
  refine ⟨_, hmain, ?_, ?_, rfl⟩
  · exact List.mergeSort_perm _ _
  · intro d hd
    have hmem := (List.mergeSort_perm ((donations.map normalizeExtraLifeDonation).filter
      (fun d => d.eventID == participantData.eventID)) _).subset hd
    exact eq_of_beq (List.mem_filter.mp hmem).2

/-- Stored Extra Life data of the old participant for the C5 witness. -/
def c5Prev : ProcessedExtraLifeData :=
  { sumDonations := 10, fundraisingGoal := 100,
    donations :=
      [{ amount := 4, displayName := "Old", message := "", donationID := "old1",
         createdDateUTC := "2024-04-01T00:00:00Z", eventID := "E1" }],
    newDonations := none,
    metadata := { lastUpdated := "2024-04-01T00:00:00Z", participantId := "111",
                  eventID := "E1" } }

/-- Participant response of the new participant for the C5 witness. -/
def c5Participant : ExtraLifeParticipantData :=
  { sumDonations := 42, fundraisingGoal := 200, eventID := "E2" }

/-- Fetched donations for the C5 witness (one in the new event, one not). -/
def c5Raw : List ExtraLifeRawDonation :=
  [{ amount := 7, displayName := some "Dan", message := none, donationID := "id1",
     createdDateUTC := "2024-05-01T00:00:00Z", eventID := "E2" },
   { amount := 9, displayName := some "Eve", message := none, donationID := "id2",
     createdDateUTC := "2024-05-02T00:00:00Z", eventID := "E1" }]

/-- Witness for C5 at a concrete participant switch. -/
theorem pollExtraLife_participant_switch_witness :
    pollExtraLife (fun _ => 0) "2024-05-03T00:00:00Z" 100 "777" (some c5Prev)
        c5Participant c5Raw =
      pollExtraLife (fun _ => 0) "2024-05-03T00:00:00Z" 100 "777" none
        c5Participant c5Raw ∧
    ∃ r, pollExtraLife (fun _ => 0) "2024-05-03T00:00:00Z" 100 "777" (some c5Prev)
        c5Participant c5Raw = some r ∧
      r.donations.Perm ((c5Raw.map normalizeExtraLifeDonation).filter
        (fun d => d.eventID == c5Participant.eventID)) ∧
      (∀ d ∈ r.donations, d.eventID = c5Participant.eventID) ∧
      r.metadata.participantId = "777" :=
  pollExtraLife_participant_switch (fun _ => 0) "2024-05-03T00:00:00Z" 100 "777"
    c5Prev c5Participant c5Raw (by decide) (by decide)

/-! ## Reset-guard lemmas (claim C9) -/

theorem sameCalendarDate_congr_cond (st : SummaryKind) {p q : PollInstant}
    (h : sameCalendarDate p q) :
    resetBoundaryCond st p = resetBoundaryCond st q := by
  cases st <;> simp [resetBoundaryCond, h.2.2.1, h.2.2.2]

theorem resetGoal_fired_none (st : SummaryKind) (now : PollInstant) :
    resetGoalValuesIfNeeded st now none = (some now, true) := rfl

theorem resetGoal_fired_some (st : SummaryKind) (now r : PollInstant)
    (h : (resetGoalValuesIfNeeded st now (some r)).2 = true) :
    resetBoundaryCond st now = true ∧ r.date ≠ now.date := by
  unfold resetGoalValuesIfNeeded at h
  dsimp only at h
  by_cases hc : (resetBoundaryCond st now && !(r.date == now.date)) = true
  · rw [Bool.and_eq_true] at hc
    obtain ⟨h1, h2⟩ := hc
    refine ⟨h1, ?_⟩
    intro heq
    rw [heq] at h2
    simp at h2
  · rw [if_neg hc] at h
    simp at h

theorem resetGoal_state_of_fired (st : SummaryKind) (now : PollInstant)
    (s : Option PollInstant) (h : (resetGoalValuesIfNeeded st now s).2 = true) :
    (resetGoalValuesIfNeeded st now s).1 = some now := by
  cases s with
  | none => rfl
  | some r =>
    unfold resetGoalValuesIfNeeded at h ⊢
    dsimp only at h ⊢
    by_cases hc : (resetBoundaryCond st now && !(r.date == now.date)) = true
    · rw [if_pos hc]
    · rw [if_neg hc] at h
      simp at h

theorem resetGoal_state_of_not_fired (st : SummaryKind) (now : PollInstant)
    (s : Option PollInstant) (h : ¬ (resetGoalValuesIfNeeded st now s).2 = true) :
    (resetGoalValuesIfNeeded st now s).1 = s := by
  cases s with
  | none => exact absurd rfl h
  | some r =>
    unfold resetGoalValuesIfNeeded at h ⊢
    dsimp only at h ⊢
    by_cases hc : (resetBoundaryCond st now && !(r.date == now.date)) = true
    · rw [if_pos hc] at h
      simp at h
    · rw [if_neg hc]

/-- The record the guard consults either pins down the calendar date of any
instant sharing `t`'s date, or is a later trace element, or `t` is not on a
boundary day at all. -/
def ResetGuardOK (st : SummaryKind) (tr : List PollInstant) (t : PollInstant)
    (rest : List PollInstant) (s : Option PollInstant) : Prop :=
  ∃ r, s = some r ∧
    (resetBoundaryCond st t = false ∨
     (∀ q, sameCalendarDate t q → r.date = q.date) ∨
     (r ∈ tr ∧ t.time ≤ r.time ∧ ∀ q ∈ rest, r.time ≤ q.time))

/-- Once a poll `t` has been processed, no later poll in the same accounting
period fires the reset. -/
theorem resetRun_no_refire (st : SummaryKind) (tr : List PollInstant)
    (hpc : ∀ p ∈ tr, ∀ q ∈ tr, samePeriod st p q → p.time ≤ q.time →
      resetBoundaryCond st q = true → sameCalendarDate p q)
    (hbet : ∀ p ∈ tr, ∀ m ∈ tr, ∀ q ∈ tr, sameCalendarDate p q → p.time ≤ m.time →
      m.time ≤ q.time → sameCalendarDate m q)
    (t : PollInstant) (ht : t ∈ tr) :
    ∀ (rest : List PollInstant), (∀ x ∈ rest, x ∈ tr) →
      (∀ q ∈ rest, t.time ≤ q.time) →
      rest.Pairwise (fun p q => p.time ≤ q.time) →
      ∀ (s : Option PollInstant), ResetGuardOK st tr t rest s →
      ∀ (j : ℕ) (q : PollInstant), rest.get? j = some q →
        ((runGoalResets st s rest).get? j).map (·.1) = some true →
        ¬ samePeriod st t q := by
  intro rest
  induction rest with
  | nil =>
    intro _ _ _ s _ j q hq
    simp at hq
  | cons m rest' ih =>
    intro hsub hts hpw s hgood j q hq hfire hperiod
    obtain ⟨r, rfl, hr⟩ := hgood
    cases j with
    | zero =>
      simp only [List.get?] at hq
      cases Option.some.inj hq
      have hflag : (resetGoalValuesIfNeeded st m (some r)).2 = true := by
        simp only [runGoalResets, List.get?, Option.map] at hfire
        exact Option.some.inj hfire
      obtain ⟨hcond, hdate⟩ := resetGoal_fired_some st m r hflag
      have hsd : sameCalendarDate t m :=
        hpc t ht m (hsub m (by simp)) hperiod (hts m (by simp)) hcond
      rcases hr with hfalse | hdates | ⟨hrmem, htr, hrle⟩
      · have := sameCalendarDate_congr_cond st hsd
        rw [hfalse, hcond] at this
        exact Bool.false_ne_true this
      · exact hdate (hdates m hsd)
      · have hsd' : sameCalendarDate r m :=
          hbet t ht r hrmem m (hsub m (by simp)) hsd htr (hrle m (by simp))
        exact hdate hsd'.2.2.1
    | succ j' =>
      have hq' : rest'.get? j' = some q := hq
      have hfire' : ((runGoalResets st (resetGoalValuesIfNeeded st m (some r)).1
          rest').get? j').map (·.1) = some true := by
        simpa [runGoalResets] using hfire
      have hsub' : ∀ x ∈ rest', x ∈ tr := fun x hx => hsub x (by simp [hx])
      have hts' : ∀ x ∈ rest', t.time ≤ x.time := fun x hx => hts x (by simp [hx])
      have hpw' : rest'.Pairwise (fun p q => p.time ≤ q.time) := hpw.of_cons
      have hgood' : ResetGuardOK st tr t rest'
          (resetGoalValuesIfNeeded st m (some r)).1 := by
        by_cases hm : (resetGoalValuesIfNeeded st m (some r)).2 = true
        · rw [resetGoal_state_of_fired st m (some r) hm]
          refine ⟨m, rfl, Or.inr (Or.inr ⟨hsub m (by simp), hts m (by simp), ?_⟩)⟩
          intro x hx
          exact List.rel_of_pairwise_cons hpw hx
        · rw [resetGoal_state_of_not_fired st m (some r) hm]
          refine ⟨r, rfl, ?_⟩
          rcases hr with h1 | h2 | ⟨h3a, h3b, h3c⟩
          · exact Or.inl h1
          · exact Or.inr (Or.inl h2)
          · exact Or.inr (Or.inr ⟨h3a, h3b, fun x hx => h3c x (by simp [hx])⟩)
      exact absurd hperiod
        (ih hsub' hts' hpw' _ hgood' j' q hq' hfire')

/-- Claim C9: over any sequence of successful polls (modulo the stated
calendar-coherence of the instants), the goal reset fires only at a poll
with no earlier poll in the same accounting period — hence at most once per
calendar boundary however frequent the polling — and the firing poll's
instant is recorded as the new `lastGoalReset` guard value. -/
theorem resetGoalValuesIfNeeded_once_per_boundary (st : SummaryKind) :
    ∀ (tr : List PollInstant) (s0 : Option PollInstant),
      tr.Pairwise (fun p q => p.time ≤ q.time) →
      (∀ p ∈ tr, ∀ q ∈ tr, samePeriod st p q → p.time ≤ q.time →
        resetBoundaryCond st q = true → sameCalendarDate p q) →
      (∀ p ∈ tr, ∀ m ∈ tr, ∀ q ∈ tr, sameCalendarDate p q → p.time ≤ m.time →
        m.time ≤ q.time → sameCalendarDate m q) →
      ∀ (j : ℕ) (q : PollInstant), tr.get? j = some q →
        ((runGoalResets st s0 tr).get? j).map (·.1) = some true →
        ((runGoalResets st s0 tr).get? j).map (·.2) = some (some q) ∧
        ∀ (i : ℕ) (p : PollInstant), i < j → tr.get? i = some p →
          ¬ samePeriod st p q := by
  intro tr
  induction tr with
  | nil =>
    intro s0 _ _ _ j q hq
    simp at hq
  | cons t rest ih =>
    intro s0 hmono hpc hbet j q hq hfire
    cases j with
    | zero =>
      simp only [List.get?] at hq
      cases Option.some.inj hq
      have hflag : (resetGoalValuesIfNeeded st t s0).2 = true := by
        simpa [runGoalResets] using hfire
      constructor
      · simp [runGoalResets, resetGoal_state_of_fired st t s0 hflag]
      · intro i p hi
        exact absurd hi (Nat.not_lt_zero i)
    | succ j' =>
      have hq' : rest.get? j' = some q := hq
      have hfire' : ((runGoalResets st (resetGoalValuesIfNeeded st t s0).1
          rest).get? j').map (·.1) = some true := by
        simpa [runGoalResets] using hfire
      have hpc' : ∀ p ∈ rest, ∀ q2 ∈ rest, samePeriod st p q2 → p.time ≤ q2.time →
          resetBoundaryCond st q2 = true → sameCalendarDate p q2 :=
        fun p hp q2 hq2 => hpc p (List.mem_cons_of_mem t hp) q2
          (List.mem_cons_of_mem t hq2)
      have hbet' : ∀ p ∈ rest, ∀ m ∈ rest, ∀ q2 ∈ rest, sameCalendarDate p q2 →
          p.time ≤ m.time → m.time ≤ q2.time → sameCalendarDate m q2 :=
        fun p hp m hm q2 hq2 => hbet p (List.mem_cons_of_mem t hp) m
          (List.mem_cons_of_mem t hm) q2 (List.mem_cons_of_mem t hq2)
      obtain ⟨hrec, hprev⟩ := ih (resetGoalValuesIfNeeded st t s0).1 hmono.of_cons
        hpc' hbet' j' q hq' hfire'
      constructor
      · simpa [runGoalResets] using hrec
      · intro i p hi hp
        cases i with
        | zero =>
          simp only [List.get?] at hp
          cases Option.some.inj hp
          have hgood : ResetGuardOK st (t :: rest) t rest
              (resetGoalValuesIfNeeded st t s0).1 := by
            by_cases hf : (resetGoalValuesIfNeeded st t s0).2 = true
            · rw [resetGoal_state_of_fired st t s0 hf]
              exact ⟨t, rfl, Or.inr (Or.inl (fun q2 hq2 => hq2.2.2.1))⟩
            · rw [resetGoal_state_of_not_fired st t s0 hf]
              cases s0 with
              | none => exact absurd rfl hf
              | some r0 =>
                have hnc : ¬ (resetBoundaryCond st t && !(r0.date == t.date)) = true := by
                  intro hcc
                  apply hf
                  unfold resetGoalValuesIfNeeded
                  dsimp only
                  rw [if_pos hcc]
                refine ⟨r0, rfl, ?_⟩
                by_cases hcd : resetBoundaryCond st t = true
                · have hbeq : (r0.date == t.date) = true := by
                    by_contra hne
                    rw [Bool.not_eq_true] at hne
                    exact hnc (by simp [hcd, hne])
                  have heq : r0.date = t.date := by simpa using hbeq
                  exact Or.inr (Or.inl (fun q2 hq2 => heq.trans hq2.2.2.1))
                · rw [Bool.not_eq_true] at hcd
                  exact Or.inl hcd
          exact resetRun_no_refire st (t :: rest) hpc hbet t (by simp) rest
            (fun x hx => by simp [hx])
            (fun x hx => List.rel_of_pairwise_cons hmono hx)
            hmono.of_cons _ hgood j' q hq' hfire'
        | succ i' =>
          exact hprev i' p (by omega) hp

/-- First poll instant for the C9 witness: a Sunday morning. -/
def c9Poll0 : PollInstant :=
  { time := 0, year := 2024, month := 2, date := 3, day := 0, week := 9 }

/-- Second poll instant for the C9 witness: later the same Sunday. -/
def c9Poll1 : PollInstant :=
  { time := 10, year := 2024, month := 2, date := 3, day := 0, week := 9 }

/-- Witness for C9: with weekly summaries and two polls on the same Sunday
starting from an absent guard record, the theorem applies to the firing
first poll, whose instant is recorded. -/
theorem resetGoalValuesIfNeeded_once_per_boundary_witness :
    ((runGoalResets .weekly none [c9Poll0, c9Poll1]).get? 0).map (·.2) =
      some (some c9Poll0) ∧
    ∀ (i : ℕ) (p : PollInstant), i < 0 → [c9Poll0, c9Poll1].get? i = some p →
      ¬ samePeriod .weekly p c9Poll0 := by
  have h := resetGoalValuesIfNeeded_once_per_boundary .weekly [c9Poll0, c9Poll1]
    none (by decide) (by decide) (by decide) 0 c9Poll0 rfl (by decide)
  exact h
